import Mathlib

/-!
Shallow embedding of the dating-simulation core (`agents.py`, `dating.py`).

Conventions of the embedding:
* Python floats are modelled as `ℚ`; the program only ever adds, subtracts,
  multiplies, divides by positive constants, compares, clamps and floors, so
  rational arithmetic is exact for every computation the program performs.
* The global `random` module is modelled as an explicit state `RNG`: an
  abstract stream of values in `[0, 1)` together with a position.  Every call
  of `random.random()` reads one value and advances the position; `uniform`,
  `randint`, `choice`, `sample` and `shuffle` are derived from it exactly as
  far as the program's logic depends on them (which value gets drawn is
  opaque in the source as well, so only the ranges and the number of draws
  matter).
* Agent ids `str(i)` are modelled by the number `i`: the source uses ids only
  as dictionary keys and in equality tests, and `str` is injective on ints.
  The placeholder target string `"random"` of a REQUEST_DATE action is
  modelled by `TargetId.randomTarget`; it never equals a real agent id, just
  as the string `"random"` never equals an id `str(i)`.
* Python dicts are modelled as insertion-ordered association lists with the
  exact dict semantics used by the program: assignment appends a fresh key or
  overwrites in place, `del` of a missing key is an error, iteration is in
  insertion order.
* Fallible operations (`next(...)` on an exhausted generator, `del` of a
  missing key) return `Option`; `none` models the raised exception.
* `print` calls and the `colorama` setup are I/O only and are dropped.
* The breakup sweep additionally returns a trace of the operations it
  performs (`SweepEvent`), recording each `update_satisfaction` call and each
  breakup draw at exactly the places the source performs them; the trace does
  not influence any computed state.
-/

namespace Dating

/-- `class DatingActionType(Enum)` from `dating.py`. -/
inductive DatingActionType
  | OBSERVE
  | SEND_MESSAGE
  | REQUEST_DATE
  | ACCEPT_DATE
  | REJECT
  | EXPRESS_INTEREST
deriving DecidableEq

/-- `class PersonalityTrait(Enum)` from `dating.py`. -/
inductive PersonalityTrait
  | OPENNESS
  | EXTRAVERSION
  | AGREEABLENESS
deriving DecidableEq, Fintype

/-- Iteration order of `for trait in PersonalityTrait`. -/
def personalityTraits : List PersonalityTrait :=
  [.OPENNESS, .EXTRAVERSION, .AGREEABLENESS]

/-- `class Interest(Enum)` from `dating.py`. -/
inductive Interest
  | SPORTS
  | MUSIC
  | TRAVEL
  | FOOD
  | TECH
  | ART
  | GAMING
  | READING
deriving DecidableEq, Inhabited

/-- `list(Interest)` in declaration order. -/
def interestList : List Interest :=
  [.SPORTS, .MUSIC, .TRAVEL, .FOOD, .TECH, .ART, .GAMING, .READING]

/-- Model of the `random` module state: a stream of values (intended to lie
in `[0, 1)`, which is a hypothesis of the theorems that need it) and the
position of the next draw. -/
structure RNG where
  stream : Nat → ℚ
  idx : Nat

/-- `random.random()`: draw the next value, advance the state. -/
def RNG.random (g : RNG) : ℚ × RNG :=
  (g.stream g.idx, ⟨g.stream, g.idx + 1⟩)

/-- `random.uniform(a, b) = a + (b - a) * random()`. -/
def RNG.uniform (g : RNG) (a b : ℚ) : ℚ × RNG :=
  (a + (b - a) * (g.random).1, (g.random).2)

/-- `random.randint(a, b)`: an integer in `[a, b]`, one draw.  The `% n`
keeps the definition total; for a draw in `[0, 1)` the `%` is the identity. -/
def RNG.randint (g : RNG) (a b : Nat) : Nat × RNG :=
  (a + (⌊(g.random).1 * (b + 1 - a : Nat)⌋).toNat % (b + 1 - a), (g.random).2)

/-- `random.choice` / `random.sample` index draw into a list of length `n`. -/
def RNG.choiceIdx (g : RNG) (n : Nat) : Nat × RNG :=
  ((⌊(g.random).1 * n⌋).toNat % n, (g.random).2)

/-- `random.sample(pool, k)`: `k` distinct elements, modelled as `k` repeated
draws each removing the chosen element from the pool (the concrete drawing
scheme of CPython is opaque to the program; only distinctness, the size and
the draw count are ever used). -/
def sampleAux {α : Type} [DecidableEq α] [Inhabited α] :
    Nat → List α → RNG → List α × RNG
  | 0, _, g => ([], g)
  | _ + 1, [], g => ([], g)
  | k + 1, pool@(_ :: _), g =>
    let i := (g.choiceIdx pool.length).1
    let x := pool.getD i default
    let rest := sampleAux k (pool.erase x) (g.choiceIdx pool.length).2
    (x :: rest.1, rest.2)

/-- `random.shuffle(xs)`: a permutation of `xs`, consuming draws. -/
def shuffle (xs : List String) (g : RNG) : List String × RNG :=
  sampleAux xs.length xs g

/-- The `"random"` placeholder written into REQUEST_DATE params (`dating.py`
line 123); `agentRef` models a params entry holding a real id string. -/
inductive TargetId
  | randomTarget
  | agentRef (id : Nat)
deriving DecidableEq

/-- The `params` dict of an `Action`; only these two keys are ever used. -/
structure ActionParams where
  message : Option String := none
  target_id : Option TargetId := none
deriving DecidableEq

/-- `@dataclass Action` from `agents.py`, with the dating action types. -/
structure Action where
  type : DatingActionType
  params : ActionParams
deriving DecidableEq

/-- An entry of `environment.messages` (`{"from": .., "to": ..}` dict); the
program never appends to the list, so only the `to` field is ever read. -/
structure Message where
  sender : Nat
  recipient : Nat
deriving DecidableEq

/-- The observation returned by `DatingAgent.perceive`. -/
structure Observation where
  time : Nat
  messages : List Message
  relationships : List (Nat × Nat)
deriving DecidableEq

/-- `class DatingEnvironment(Environment)`: `relationships` is the
insertion-ordered dict `agent_id -> agent_id`. -/
structure DatingEnvironment where
  current_time : Nat
  relationships : List (Nat × Nat)
  messages : List Message
  dates : List Unit
deriving DecidableEq

/-- `class DatingAgent(Agent)`: `id`/`memory` from the `Agent` base class,
the rest is the `self.state` dict built in `DatingAgent.__init__`. -/
structure DatingAgent where
  id : Nat
  name : String
  personality : PersonalityTrait → ℚ
  interests : List Interest
  relationship_status : String
  emotional_state : ℚ
  relationship_satisfaction : ℚ
  memory : List (Observation × Action)

instance : Inhabited DatingAgent :=
  ⟨⟨0, "", fun _ => 0, [], "single", 1/2, 1, []⟩⟩

/-- Python dict membership `k in d`. -/
def dictMem (d : List (Nat × Nat)) (k : Nat) : Bool :=
  d.any (fun p => p.1 == k)

/-- Python dict lookup `d[k]` (as an `Option`). -/
def dictGet (d : List (Nat × Nat)) (k : Nat) : Option Nat :=
  (d.find? (fun p => p.1 == k)).map (fun p => p.2)

/-- Python dict assignment `d[k] = v`: overwrite in place if the key exists,
append otherwise (insertion order). -/
def dictSet (d : List (Nat × Nat)) (k v : Nat) : List (Nat × Nat) :=
  if dictMem d k then d.map (fun p => if p.1 == k then (k, v) else p)
  else d ++ [(k, v)]

/-- Python `del d[k]`: `none` models the `KeyError` on a missing key. -/
def dictDel (d : List (Nat × Nat)) (k : Nat) : Option (List (Nat × Nat)) :=
  if dictMem d k then some (d.filter (fun p => p.1 != k)) else none

/-- `DatingAgent.__init__(agent_id, name)`: three `random.random()` trait
draws (in `PersonalityTrait` order), then `random.randint(2, 5)`, then the
`random.sample` of interests. -/
def DatingAgent.mkInit (agent_id : Nat) (name : String) (g : RNG) :
    DatingAgent × RNG :=
  let o := (g.random).1
  let g1 := (g.random).2
  let e := (g1.random).1
  let g2 := (g1.random).2
  let agr := (g2.random).1
  let g3 := (g2.random).2
  let k := (g3.randint 2 5).1
  let g4 := (g3.randint 2 5).2
  let ints := sampleAux k interestList g4
  (⟨agent_id, name,
    fun t => match t with
      | .OPENNESS => o
      | .EXTRAVERSION => e
      | .AGREEABLENESS => agr,
    ints.1, "single", 0.5, 1.0, []⟩, ints.2)

/-- `DatingAgent.perceive`. -/
def DatingAgent.perceive (a : DatingAgent) (env : DatingEnvironment) :
    Observation :=
  ⟨env.current_time,
   env.messages.filter (fun m => m.recipient == a.id),
   env.relationships⟩

/-- `DatingAgent._try_dating_action`. -/
def DatingAgent.try_dating_action (a : DatingAgent) (g : RNG) : Action × RNG :=
  if (g.random).1 < 0.5 then
    ({ type := .EXPRESS_INTEREST,
       params := { message := some ("Hi! I am " ++ a.name) } }, (g.random).2)
  else
    ({ type := .REQUEST_DATE,
       params := { target_id := some .randomTarget } }, (g.random).2)

/-- `DatingAgent._relationship_action`. -/
def DatingAgent.relationship_action (_a : DatingAgent) : Action :=
  { type := .SEND_MESSAGE, params := { message := some "How are you?" } }

/-- `DatingAgent.decide`. -/
def DatingAgent.decide (a : DatingAgent) (_obs : Observation) (g : RNG) :
    Action × RNG :=
  if (g.random).1 < 0.1 then
    if a.relationship_status = "single" then a.try_dating_action (g.random).2
    else (a.relationship_action, (g.random).2)
  else
    ({ type := .OBSERVE, params := {} }, (g.random).2)

/-- `Agent.act` (from `agents.py`): perceive, decide, record memory. -/
def DatingAgent.act (a : DatingAgent) (env : DatingEnvironment) (g : RNG) :
    DatingAgent × Action × RNG :=
  let obs := a.perceive env
  let r := a.decide obs g
  ({ a with memory := a.memory ++ [(obs, r.1)] }, r.1, r.2)

/-- `DatingAgent.calculate_compatibility`. -/
def DatingAgent.calculate_compatibility (a other : DatingAgent) : ℚ :=
  let pers_diff :=
    (personalityTraits.map
      (fun t => |a.personality t - other.personality t|)).sum
  let shared_interests :=
    (a.interests.toFinset ∩ other.interests.toFinset).card
  (1 - pers_diff / (personalityTraits.length : ℚ)) * 0.5 +
    ((shared_interests : ℚ) / 5) * 0.5

/-- `DatingAgent.update_satisfaction`: returns the new satisfaction, the
mutated agent, and the advanced rng (the `random.uniform(-0.1, 0.1)` draw). -/
def DatingAgent.update_satisfaction (a partner : DatingAgent) (g : RNG) :
    ℚ × DatingAgent × RNG :=
  let compatibility := a.calculate_compatibility partner
  let random_event := (g.uniform (-0.1) 0.1).1
  let newSat :=
    max 0 (min 1.0
      (a.relationship_satisfaction + random_event +
        (compatibility - 0.5) * 0.1))
  (newSat, { a with relationship_satisfaction := newSat },
   (g.uniform (-0.1) 0.1).2)

/-- `DatingEnvironment.is_valid_action`.  For REQUEST_DATE the source reads
`action.params["target_id"]` (always present, always `"random"` in this
program) and tests that neither the agent nor the target is a dict key; the
placeholder never is one. -/
def DatingEnvironment.is_valid_action (env : DatingEnvironment)
    (agent : DatingAgent) (action : Action) : Bool :=
  if action.type == .REQUEST_DATE then
    (!dictMem env.relationships agent.id) &&
      (match action.params.target_id.getD .randomTarget with
        | .randomTarget => true
        | .agentRef t => !dictMem env.relationships t)
  else true

/-- `DatingEnvironment.update`: advance time by exactly 1. -/
def DatingEnvironment.update (env : DatingEnvironment) : DatingEnvironment :=
  { env with current_time := env.current_time + 1 }

/-- The `self.stats` dict of `DatingSimulation`. -/
structure Stats where
  messages_sent : Nat
  dates_arranged : Nat
  relationships_formed : Nat
deriving DecidableEq

/-- `class DatingSimulation`; `rng` is the threaded state of the global
`random` module. -/
structure DatingSimulation where
  names : List String
  agents : List DatingAgent
  environment : DatingEnvironment
  stats : Stats
  rng : RNG

/-- The fixed name pool of `DatingSimulation.__init__` — source list order. -/
def namePool : List String :=
  ["Alex", "Blair", "Casey", "Drew", "Eden", "Frankie", "Gray", "Harper",
   "Indie", "Jules", "Kennedy", "London", "Morgan", "Nico", "Oak", "Paris",
   "Quinn", "Riley", "Sage", "Taylor", "Union", "Val", "Winter", "Xen"]

/-- `[DatingAgent(str(i), names[i % len(names)]) for i in range(n)]`,
threading the rng through the constructors in order. -/
def buildAgents (names : List String) : Nat → Nat → RNG →
    List DatingAgent × RNG
  | _, 0, g => ([], g)
  | i, n + 1, g =>
    let a := DatingAgent.mkInit i (names.getD (i % names.length) "") g
    let rest := buildAgents names (i + 1) n a.2
    (a.1 :: rest.1, rest.2)

/-- `DatingSimulation.__init__(num_agents)`.  The population size is an `ℤ`
because Python accepts a negative count, for which `range(num_agents)` is
empty. -/
def DatingSimulation.mkInit (num_agents : ℤ) (g : RNG) : DatingSimulation :=
  let nm := shuffle namePool g
  let ag := buildAgents nm.1 0 num_agents.toNat nm.2
  { names := nm.1, agents := ag.1,
    environment := ⟨0, [], [], []⟩,
    stats := ⟨0, 0, 0⟩, rng := ag.2 }

/-- Mutation of the agent object with the given id (the Python pairs hold a
reference to the object; ids are unique in every constructed simulation). -/
def updateAgent (agents : List DatingAgent) (i : Nat)
    (f : DatingAgent → DatingAgent) : List DatingAgent :=
  agents.map (fun a => if a.id == i then f a else a)

/-- `next(a for a in self.agents if a.id == agent_id)`; `none` models the
`StopIteration` on a missing id. -/
def findAgent (agents : List DatingAgent) (i : Nat) : Option DatingAgent :=
  agents.find? (fun a => a.id == i)

/-- The action-collection loop of `DatingSimulation.step` (lines 191-195):
every agent acts (mutating its memory and the rng), OBSERVE actions are
dropped, the rest are kept in agent order, paired with the acting agent. -/
def collectActions : List DatingAgent → DatingEnvironment → RNG →
    List DatingAgent × List (Nat × Action) × RNG
  | [], _, g => ([], [], g)
  | a :: rest, env, g =>
    let r := a.act env g
    let rec' := collectActions rest env r.2.2
    (r.1 :: rec'.1,
     (if (r.2.1).type == .OBSERVE then rec'.2.1 else (a.id, r.2.1) :: rec'.2.1),
     rec'.2.2)

/-- `DatingSimulation._create_relationship`. -/
def create_relationship (sim : DatingSimulation)
    (agent1 agent2 : DatingAgent) : DatingSimulation :=
  { sim with
    environment :=
      { sim.environment with
        relationships :=
          dictSet (dictSet sim.environment.relationships agent1.id agent2.id)
            agent2.id agent1.id },
    agents :=
      updateAgent
        (updateAgent sim.agents agent1.id
          (fun a => { a with relationship_status := "in_relationship" }))
        agent2.id
        (fun a => { a with relationship_status := "in_relationship" }),
    stats :=
      { sim.stats with
        relationships_formed := sim.stats.relationships_formed + 1 } }

/-- The `single_agents` list computed in both action branches of
`DatingSimulation.step`. -/
def single_targets (sim : DatingSimulation) (agent : DatingAgent) :
    List DatingAgent :=
  sim.agents.filter
    (fun a => a.id != agent.id && a.relationship_status == "single")

/-- `target = random.choice(single_agents)` — the driver resolves the
placeholder target with global visibility. -/
def chosenTarget (sim : DatingSimulation) (agent : DatingAgent) :
    DatingAgent :=
  (single_targets sim agent).getD
    ((sim.rng.choiceIdx (single_targets sim agent).length).1) default

/-- The body of the action-processing loop of `DatingSimulation.step`
(lines 198-227), for one collected `(agent, action)` pair. -/
def processAction (sim : DatingSimulation) (pair : Nat × Action) :
    DatingSimulation :=
  match findAgent sim.agents pair.1 with
  | none => sim
  | some agent =>
    if !sim.environment.is_valid_action agent pair.2 then sim
    else if pair.2.type == .EXPRESS_INTEREST then
      if (single_targets sim agent).isEmpty then sim
      else
        let g' := (sim.rng.choiceIdx (single_targets sim agent).length).2
        let _compatibility := agent.calculate_compatibility (chosenTarget sim agent)
        { sim with
          rng := g',
          stats :=
            { sim.stats with messages_sent := sim.stats.messages_sent + 1 } }
    else if pair.2.type == .REQUEST_DATE then
      if (single_targets sim agent).isEmpty then sim
      else
        let target := chosenTarget sim agent
        let g' := (sim.rng.choiceIdx (single_targets sim agent).length).2
        let compatibility := agent.calculate_compatibility target
        let sim1 := { sim with rng := g' }
        let sim2 :=
          if compatibility > 0.7 then create_relationship sim1 agent target
          else sim1
        { sim2 with
          stats :=
            { sim2.stats with
              dates_arranged := sim2.stats.dates_arranged + 1 } }
    else sim

/-- One recorded operation of the breakup sweep: an `update_satisfaction`
call by the agent with the given id, or the `random.random()` breakup draw
for the dict entry `(a, b)`. -/
inductive SweepEvent
  | updSat (id : Nat)
  | breakupDraw (a b : Nat)
deriving DecidableEq

/-- The `for agent_id, partner_id in list(...items())` loop of
`DatingSimulation._check_relationships`: updates both satisfactions, draws
the breakup chance, queues breakups; also records the trace of operations.
`none` models the `StopIteration` of a dangling id. -/
def sweepLoop : List (Nat × Nat) → DatingSimulation → List (Nat × Nat) →
    List SweepEvent →
    Option (DatingSimulation × List (Nat × Nat) × List SweepEvent)
  | [], sim, queue, tr => some (sim, queue, tr)
  | (agent_id, partner_id) :: rest, sim, queue, tr =>
    match findAgent sim.agents agent_id with
    | none => none
    | some agent =>
      match findAgent sim.agents partner_id with
      | none => none
      | some _ =>
        let u1 := agent.update_satisfaction
          ((findAgent sim.agents partner_id).getD default) sim.rng
        let agent_satisfaction := u1.1
        let agents1 := updateAgent sim.agents agent_id (fun _ => u1.2.1)
        -- `partner.update_satisfaction(agent)` reads the partner object and
        -- the already-mutated agent object
        match findAgent agents1 partner_id with
        | none => none
        | some partner1 =>
          let u2 := partner1.update_satisfaction u1.2.1 u1.2.2
          let partner_satisfaction := u2.1
          let agents2 := updateAgent agents1 partner_id (fun _ => u2.2.1)
          let average_satisfaction :=
            (agent_satisfaction + partner_satisfaction) / 2
          let breakup_chance := (1 - average_satisfaction) * 0.1
          let r := (u2.2.2).random
          let queue' :=
            if r.1 < breakup_chance then queue ++ [(agent_id, partner_id)]
            else queue
          sweepLoop rest { sim with agents := agents2, rng := r.2 } queue'
            (tr ++ [.updSat agent_id, .updSat partner_id,
                    .breakupDraw agent_id partner_id])

/-- `DatingSimulation._break_relationship`: two dict deletions (a missing
key models the `KeyError`), both statuses reset to single, both satisfaction
scores reset to 1.0. -/
def break_relationship (sim : DatingSimulation) (id1 id2 : Nat) :
    Option DatingSimulation :=
  (dictDel sim.environment.relationships id1).bind fun rel1 =>
    (dictDel rel1 id2).map fun rel2 =>
      { sim with
        environment := { sim.environment with relationships := rel2 },
        agents :=
          updateAgent
            (updateAgent sim.agents id1
              (fun a =>
                { a with
                  relationship_status := "single",
                  relationship_satisfaction := 1.0 }))
            id2
            (fun a =>
              { a with
                relationship_status := "single",
                relationship_satisfaction := 1.0 }) }

/-- The `for agent, partner in breakups` loop. -/
def applyBreakups : List (Nat × Nat) → DatingSimulation →
    Option DatingSimulation
  | [], sim => some sim
  | (a, b) :: rest, sim =>
    (break_relationship sim a b).bind (applyBreakups rest)

/-- `DatingSimulation._check_relationships`: the sweep over a snapshot of
the relationship dict, then the queued breakups. -/
def check_relationships (sim : DatingSimulation) : Option DatingSimulation :=
  (sweepLoop sim.environment.relationships sim [] []).bind fun r =>
    applyBreakups r.2.1 r.1

/-- `DatingSimulation.step`: collect actions, process them in order, run the
breakup sweep, advance environment time.  `none` models an uncaught
exception escaping `step`. -/
def step (sim : DatingSimulation) : Option DatingSimulation :=
  let c := collectActions sim.agents sim.environment sim.rng
  let sim1 := { sim with agents := c.1, rng := c.2.2 }
  let sim2 := c.2.1.foldl processAction sim1
  (check_relationships sim2).map fun sim3 =>
    { sim3 with environment := sim3.environment.update }

/-- `N` consecutive calls of `step`. -/
def run : Nat → DatingSimulation → Option DatingSimulation
  | 0, sim => some sim
  | n + 1, sim => (step sim).bind (run n)

/-- The stats read off after `k` ticks (the driver exposes `self.stats` to
the presentation layer). -/
def statsAfter (sim : DatingSimulation) (k : Nat) : Option Stats :=
  (run k sim).map (fun s => s.stats)

/-! ## Invariants -/

/-- The key list of the relationship dict. -/
def relKeys (d : List (Nat × Nat)) : List Nat := d.map Prod.fst

/-- Dict keys are pairwise distinct (true of every Python dict). -/
def KeysNodup (d : List (Nat × Nat)) : Prop := (relKeys d).Nodup

/-- The relationship mapping is symmetric and never maps an id to itself. -/
def SymmRel (d : List (Nat × Nat)) : Prop :=
  ∀ p ∈ d, p.1 ≠ p.2 ∧ (p.2, p.1) ∈ d

/-- An agent's status is "in_relationship" iff its id is a key of the
relationship mapping. -/
def StatusIff (s : DatingSimulation) : Prop :=
  ∀ a ∈ s.agents,
    (a.relationship_status = "in_relationship" ↔
      dictMem s.environment.relationships a.id = true)

/-- Agent ids are pairwise distinct. -/
def IdsNodup (s : DatingSimulation) : Prop :=
  (s.agents.map (fun a => a.id)).Nodup

/-- The structural invariant of a simulation state. -/
def Inv (s : DatingSimulation) : Prop :=
  KeysNodup s.environment.relationships ∧
  SymmRel s.environment.relationships ∧
  IdsNodup s ∧ StatusIff s ∧
  Even s.environment.relationships.length

/-- Satisfaction and all personality scores of an agent lie in `[0, 1]`. -/
def AgentBounded (a : DatingAgent) : Prop :=
  0 ≤ a.relationship_satisfaction ∧ a.relationship_satisfaction ≤ 1 ∧
  ∀ t, 0 ≤ a.personality t ∧ a.personality t ≤ 1

/-- All agents of the simulation are bounded. -/
def Bounds (s : DatingSimulation) : Prop :=
  ∀ a ∈ s.agents, AgentBounded a

/-- The stream of the rng model only produces values in `[0, 1)`, as
`random.random()` does. -/
def StreamBounded (g : RNG) : Prop :=
  ∀ n, 0 ≤ g.stream n ∧ g.stream n < 1

/-- Two agent objects agreeing on everything except the memory log. -/
def SameCore (a b : DatingAgent) : Prop :=
  b.id = a.id ∧ b.personality = a.personality ∧ b.interests = a.interests ∧
  b.relationship_status = a.relationship_status ∧
  b.relationship_satisfaction = a.relationship_satisfaction

/-- The status-relevant projection of an agent object. -/
def statusProj (a : DatingAgent) : Nat × String :=
  (a.id, a.relationship_status)

/-! ## Concrete states used as witnesses and counterexamples -/

/-- A stream that always draws `1/2`. -/
def gHalf : RNG := ⟨fun _ => 1/2, 0⟩

/-- The stream driving the crash run of `step (mkInit 2 gCrash)`: draws
27/36 pick 5 interests per agent, draw 42 makes agent 0 act, draws from 46
on push both satisfaction updates down and trigger the breakup draw of both
directional entries of the single couple. -/
def gCrash : RNG :=
  ⟨fun i => if i = 27 ∨ i = 36 then 3/4 else
    if i = 42 ∨ 46 ≤ i then 0 else 1/2, 0⟩

/-- Like `gCrash`, but the sweep draws (indices 46 and up) stay at `1/2`, so
the couple formed in the first tick survives it: the run succeeds. -/
def gForm : RNG :=
  ⟨fun i => if i = 27 ∨ i = 36 then 3/4 else if i = 42 then 0 else 1/2, 0⟩

/-- A concrete agent in a relationship (used for sweep evaluation). -/
def agentA : DatingAgent :=
  ⟨0, "A", fun _ => 1/2, [.SPORTS, .MUSIC, .TRAVEL], "in_relationship",
   1/2, 1/2, []⟩

/-- The partner of `agentA`. -/
def agentB : DatingAgent :=
  ⟨1, "B", fun _ => 1/2, [.SPORTS, .MUSIC, .TRAVEL], "in_relationship",
   1/2, 1/2, []⟩

/-- A two-agent state holding one couple, both directional dict entries
present (as `_create_relationship` always writes them). -/
def cSweep : DatingSimulation :=
  ⟨[], [agentA, agentB], ⟨0, [(0, 1), (1, 0)], [], []⟩, ⟨0, 0, 0⟩, gHalf⟩

/-- A concrete single agent (id 0). -/
def agentS0 : DatingAgent :=
  ⟨0, "A", fun _ => 1/2, [.SPORTS, .MUSIC, .TRAVEL], "single", 1/2, 1, []⟩

/-- A concrete single agent (id 1), fully compatible with `agentS0`. -/
def agentS1 : DatingAgent :=
  ⟨1, "B", fun _ => 1/2, [.SPORTS, .MUSIC, .TRAVEL], "single", 1/2, 1, []⟩

/-- A two-agent state with both agents single. -/
def cSingles : DatingSimulation :=
  ⟨[], [agentS0, agentS1], ⟨0, [], [], []⟩, ⟨0, 0, 0⟩, gHalf⟩

/-- A collected REQUEST_DATE pair for agent 0. -/
def pairRequest : Nat × Action :=
  (0, { type := .REQUEST_DATE, params := { target_id := some .randomTarget } })

/-- A collected EXPRESS_INTEREST pair for agent 0. -/
def pairExpress : Nat × Action :=
  (0, { type := .EXPRESS_INTEREST,
        params := { message := some "Hi! I am A" } })

instance (d : List (Nat × Nat)) : Decidable (KeysNodup d) := by
  unfold KeysNodup; infer_instance

instance (d : List (Nat × Nat)) : Decidable (SymmRel d) := by
  unfold SymmRel; exact List.decidableBAll _ _

instance (s : DatingSimulation) : Decidable (StatusIff s) := by
  unfold StatusIff; exact List.decidableBAll _ _

instance (s : DatingSimulation) : Decidable (IdsNodup s) := by
  unfold IdsNodup; infer_instance

instance (s : DatingSimulation) : Decidable (Inv s) := by
  unfold Inv; infer_instance

instance (a : DatingAgent) : Decidable (AgentBounded a) := by
  unfold AgentBounded; infer_instance

instance (s : DatingSimulation) : Decidable (Bounds s) := by
  unfold Bounds; exact List.decidableBAll _ _

/-! ## Helper lemmas -/

lemma getD_mem {α : Type} [Inhabited α] {l : List α} {i : Nat}
    (h : i < l.length) : l.getD i default ∈ l := by
  rw [List.getD_eq_getElem l default h]
  exact List.getElem_mem h

lemma streamBounded_gHalf : StreamBounded gHalf := by
  intro n
  constructor <;> norm_num [gHalf]

lemma streamBounded_gCrash : StreamBounded gCrash := by
  intro n
  simp only [gCrash]
  split <;> norm_num
  split <;> norm_num

lemma randint_2_5 (g : RNG) :
    2 ≤ (g.randint 2 5).1 ∧ (g.randint 2 5).1 ≤ 5 := by
  simp only [RNG.randint]
  omega

lemma sampleAux_subset {α : Type} [DecidableEq α] [Inhabited α] (k : Nat) :
    ∀ (pool : List α) (g : RNG) (x : α),
      x ∈ (sampleAux k pool g).1 → x ∈ pool := by
  induction k with
  | zero => intro pool g x hx; simp [sampleAux] at hx
  | succ k ih =>
    intro pool g x hx
    cases pool with
    | nil => simp [sampleAux] at hx
    | cons p ps =>
      rw [sampleAux] at hx
      simp only [List.mem_cons] at hx
      rcases hx with h | h
      · subst h
        exact getD_mem (Nat.mod_lt _ (Nat.succ_pos _))
      · exact List.mem_of_mem_erase (ih _ _ _ h)

lemma length_erase_ge {α : Type} [DecidableEq α] (l : List α) (a : α) :
    l.length - 1 ≤ (l.erase a).length := by
  by_cases h : a ∈ l
  · rw [List.length_erase_of_mem h]
  · rw [List.erase_of_not_mem h]; omega

lemma sampleAux_length {α : Type} [DecidableEq α] [Inhabited α] (k : Nat) :
    ∀ (pool : List α) (g : RNG), k ≤ pool.length →
      ((sampleAux k pool g).1).length = k := by
  induction k with
  | zero => intro pool g _; simp [sampleAux]
  | succ k ih =>
    intro pool g hk
    cases pool with
    | nil => simp at hk
    | cons p ps =>
      rw [sampleAux]
      simp only [List.length_cons]
      rw [ih _ _ ?_]
      refine le_trans ?_ (length_erase_ge (p :: ps) _)
      simp only [List.length_cons] at hk ⊢
      omega

lemma sampleAux_nodup {α : Type} [DecidableEq α] [Inhabited α] (k : Nat) :
    ∀ (pool : List α) (g : RNG), pool.Nodup →
      ((sampleAux k pool g).1).Nodup := by
  induction k with
  | zero => intro pool g _; simp [sampleAux]
  | succ k ih =>
    intro pool g hp
    cases pool with
    | nil => simp [sampleAux]
    | cons p ps =>
      rw [sampleAux]
      refine List.Nodup.cons ?_ (ih _ _ (hp.erase _))
      intro hmem
      exact hp.not_mem_erase (sampleAux_subset _ _ _ _ hmem)

lemma sampleAux_stream {α : Type} [DecidableEq α] [Inhabited α] (k : Nat) :
    ∀ (pool : List α) (g : RNG), ((sampleAux k pool g).2).stream = g.stream := by
  induction k with
  | zero => intro pool g; rfl
  | succ k ih =>
    intro pool g
    cases pool with
    | nil => rfl
    | cons p ps => rw [sampleAux]; exact ih _ _

lemma streamBounded_of_eq {g g' : RNG} (h : g'.stream = g.stream)
    (hg : StreamBounded g) : StreamBounded g' := by
  intro n; rw [h]; exact hg n

lemma mkInit_agent_stream (i : Nat) (nm : String) (g : RNG) :
    ((DatingAgent.mkInit i nm g).2).stream = g.stream := by
  simp only [DatingAgent.mkInit]
  rw [sampleAux_stream]
  rfl

lemma mkInit_agent_status (i : Nat) (nm : String) (g : RNG) :
    (DatingAgent.mkInit i nm g).1.relationship_status = "single" := rfl

lemma mkInit_agent_id (i : Nat) (nm : String) (g : RNG) :
    (DatingAgent.mkInit i nm g).1.id = i := rfl

lemma mkInit_agent_bounded {g : RNG} (hg : StreamBounded g)
    (i : Nat) (nm : String) : AgentBounded (DatingAgent.mkInit i nm g).1 := by
  refine ⟨by norm_num [DatingAgent.mkInit], by norm_num [DatingAgent.mkInit], ?_⟩
  intro t
  cases t <;>
    simp only [DatingAgent.mkInit, RNG.random] <;>
    exact ⟨(hg _).1, le_of_lt (hg _).2⟩

lemma findAgent_eq_some {l : List DatingAgent} {i : Nat} {a : DatingAgent}
    (h : findAgent l i = some a) : a ∈ l ∧ a.id = i :=
  ⟨List.mem_of_find?_eq_some h, by simpa using List.find?_some h⟩

lemma relKeys_cons (p : Nat × Nat) (d : List (Nat × Nat)) :
    relKeys (p :: d) = p.1 :: relKeys d := rfl

lemma relKeys_append (d1 d2 : List (Nat × Nat)) :
    relKeys (d1 ++ d2) = relKeys d1 ++ relKeys d2 := List.map_append _ _ _

lemma dictMem_true_iff {d : List (Nat × Nat)} {k : Nat} :
    dictMem d k = true ↔ k ∈ relKeys d := by
  simp [dictMem, relKeys, List.any_eq_true, List.mem_map]

lemma dictMem_false_iff {d : List (Nat × Nat)} {k : Nat} :
    dictMem d k = false ↔ k ∉ relKeys d := by
  rw [← dictMem_true_iff]
  cases dictMem d k <;> simp

lemma mem_relKeys {d : List (Nat × Nat)} {k : Nat} :
    k ∈ relKeys d ↔ ∃ v, (k, v) ∈ d := by
  simp only [relKeys, List.mem_map]
  constructor
  · rintro ⟨⟨k', v⟩, h, rfl⟩; exact ⟨v, h⟩
  · rintro ⟨v, h⟩; exact ⟨(k, v), h, rfl⟩

lemma dictMem_append {d1 d2 : List (Nat × Nat)} {k : Nat} :
    dictMem (d1 ++ d2) k = (dictMem d1 k || dictMem d2 k) := by
  simp [dictMem]

lemma dictSet_not_mem {d : List (Nat × Nat)} {k : Nat} (v : Nat)
    (h : dictMem d k = false) : dictSet d k v = d ++ [(k, v)] := by
  simp [dictSet, h]

lemma keysNodup_eq {d : List (Nat × Nat)} (h : KeysNodup d) {k v w : Nat}
    (h1 : (k, v) ∈ d) (h2 : (k, w) ∈ d) : v = w := by
  induction d with
  | nil => simp at h1
  | cons p d ih =>
    unfold KeysNodup at h
    rw [relKeys_cons, List.nodup_cons] at h
    rcases List.mem_cons.1 h1 with e1 | e1 <;>
      rcases List.mem_cons.1 h2 with e2 | e2
    · simpa using e1.trans e2.symm
    · have hp1 : p.1 = k := by rw [← e1]
      exact absurd (mem_relKeys.2 ⟨w, e2⟩) (hp1 ▸ h.1)
    · have hp1 : p.1 = k := by rw [← e2]
      exact absurd (mem_relKeys.2 ⟨v, e1⟩) (hp1 ▸ h.1)
    · exact ih h.2 e1 e2

lemma mem_relKeys_filter {d : List (Nat × Nat)} {k j : Nat} :
    j ∈ relKeys (d.filter (fun p => p.1 != k)) ↔ j ∈ relKeys d ∧ j ≠ k := by
  simp only [relKeys, List.mem_map, List.mem_filter, bne_iff_ne]
  constructor
  · rintro ⟨p, ⟨hp, hne⟩, rfl⟩; exact ⟨⟨p, hp, rfl⟩, hne⟩
  · rintro ⟨⟨p, hp, rfl⟩, hne⟩; exact ⟨p, ⟨hp, hne⟩, rfl⟩

lemma keysNodup_filter {d : List (Nat × Nat)} (h : KeysNodup d)
    (p : Nat × Nat → Bool) : KeysNodup (d.filter p) :=
  h.sublist ((d.filter_sublist).map Prod.fst)

lemma length_filter_key {d : List (Nat × Nat)} {k : Nat} (h : KeysNodup d)
    (hk : k ∈ relKeys d) :
    (d.filter (fun p => p.1 != k)).length = d.length - 1 := by
  induction d with
  | nil => simp [relKeys] at hk
  | cons p d ih =>
    unfold KeysNodup at h
    rw [relKeys_cons, List.nodup_cons] at h
    rw [relKeys_cons] at hk
    rcases List.mem_cons.1 hk with hk | hk
    · subst hk
      rw [List.filter_cons_of_neg (by simp)]
      rw [List.filter_eq_self.2]
      · simp
      · intro q hq
        rw [bne_iff_ne]
        intro he
        exact h.1 (he ▸ mem_relKeys.2 ⟨q.2, hq⟩)
    · have hpk : p.1 ≠ k := fun he => h.1 (he ▸ hk)
      rw [List.filter_cons_of_pos (by simpa [bne_iff_ne] using hpk)]
      have hd : 1 ≤ d.length := by
        rcases mem_relKeys.1 hk with ⟨v, hv⟩
        exact List.length_pos.2 (List.ne_nil_of_mem hv)
      simp only [List.length_cons]
      rw [ih h.2 hk]
      omega

lemma updateAgent_map_eq {β : Type} {l : List DatingAgent} {i : Nat}
    {f : DatingAgent → DatingAgent} {φ : DatingAgent → β}
    (hf : ∀ a ∈ l, a.id = i → φ (f a) = φ a) :
    (updateAgent l i f).map φ = l.map φ := by
  unfold updateAgent
  rw [List.map_map]
  apply List.map_congr_left
  intro a ha
  by_cases h : a.id = i
  · simp [h, hf a ha h]
  · simp [h]

lemma mem_updateAgent {l : List DatingAgent} {i : Nat}
    {f : DatingAgent → DatingAgent} {b : DatingAgent}
    (hb : b ∈ updateAgent l i f) :
    ∃ a ∈ l, (a.id ≠ i ∧ b = a) ∨ (a.id = i ∧ b = f a) := by
  unfold updateAgent at hb
  rcases List.mem_map.1 hb with ⟨a, ha, he⟩
  refine ⟨a, ha, ?_⟩
  by_cases h : a.id = i
  · right; exact ⟨h, by simp [h] at he; exact he.symm⟩
  · left; exact ⟨h, by simp [h] at he; exact he.symm⟩

lemma idsNodup_unique {l : List DatingAgent}
    (h : (l.map (fun a => a.id)).Nodup) {a b : DatingAgent}
    (ha : a ∈ l) (hb : b ∈ l) (he : a.id = b.id) : a = b :=
  List.inj_on_of_nodup_map h ha hb he

lemma statusIff_of_proj {s s' : DatingSimulation}
    (hrel : s'.environment.relationships = s.environment.relationships)
    (hmap : s'.agents.map statusProj = s.agents.map statusProj)
    (h : StatusIff s) : StatusIff s' := by
  intro a' ha'
  have hm : statusProj a' ∈ s.agents.map statusProj := by
    rw [← hmap]; exact List.mem_map_of_mem _ ha'
  rcases List.mem_map.1 hm with ⟨a, ha, he⟩
  have hid : a.id = a'.id := congrArg Prod.fst he
  have hst : a.relationship_status = a'.relationship_status :=
    congrArg Prod.snd he
  rw [hrel, ← hid, ← hst]
  exact h a ha

lemma idsNodup_of_proj {s s' : DatingSimulation}
    (hmap : s'.agents.map statusProj = s.agents.map statusProj)
    (h : IdsNodup s) : IdsNodup s' := by
  unfold IdsNodup at h ⊢
  have : ∀ t : List DatingAgent,
      t.map (fun a => a.id) = (t.map statusProj).map Prod.fst := by
    intro t; rw [List.map_map]; rfl
  rw [this, hmap, ← this]
  exact h

lemma inv_of_proj {s s' : DatingSimulation}
    (hrel : s'.environment.relationships = s.environment.relationships)
    (hmap : s'.agents.map statusProj = s.agents.map statusProj)
    (h : Inv s) : Inv s' := by
  obtain ⟨h1, h2, h3, h4, h5⟩ := h
  exact ⟨hrel ▸ h1, hrel ▸ h2, idsNodup_of_proj hmap h3,
    statusIff_of_proj hrel hmap h4, hrel ▸ h5⟩

lemma act_sameCore (a : DatingAgent) (env : DatingEnvironment) (g : RNG) :
    SameCore a ((a.act env g).1) :=
  ⟨rfl, rfl, rfl, rfl, rfl⟩

lemma collectActions_sameCore :
    ∀ (agents : List DatingAgent) (env : DatingEnvironment) (g : RNG),
      List.Forall₂ SameCore agents (collectActions agents env g).1 := by
  intro agents
  induction agents with
  | nil => intro env g; rw [collectActions]; exact List.Forall₂.nil
  | cons a rest ih =>
    intro env g
    rw [collectActions]
    exact List.Forall₂.cons (act_sameCore a env g) (ih env _)

lemma sameCore_proj {a b : DatingAgent} (h : SameCore a b) :
    statusProj b = statusProj a := by
  unfold statusProj
  rw [h.1, h.2.2.2.1]

lemma forall₂_proj {l l' : List DatingAgent}
    (h : List.Forall₂ SameCore l l') :
    l'.map statusProj = l.map statusProj := by
  induction h with
  | nil => rfl
  | cons h₁ _ ih => simp only [List.map_cons, sameCore_proj h₁, ih]

lemma forall₂_mem {l l' : List DatingAgent} (h : List.Forall₂ SameCore l l') :
    ∀ b ∈ l', ∃ a ∈ l, SameCore a b := by
  induction h with
  | nil => intro b hb; simp at hb
  | cons h₁ htail ih =>
    intro b hb
    rcases List.mem_cons.1 hb with rfl | hb
    · exact ⟨_, List.mem_cons_self _ _, h₁⟩
    · rcases ih b hb with ⟨a, ha, hc⟩
      exact ⟨a, List.mem_cons_of_mem _ ha, hc⟩

lemma update_sat_proj (a p : DatingAgent) (g : RNG) :
    statusProj (a.update_satisfaction p g).2.1 = statusProj a := rfl

lemma update_sat_id (a p : DatingAgent) (g : RNG) :
    (a.update_satisfaction p g).2.1.id = a.id := rfl

lemma update_sat_personality (a p : DatingAgent) (g : RNG) :
    (a.update_satisfaction p g).2.1.personality = a.personality := rfl

lemma update_sat_value (a p : DatingAgent) (g : RNG) :
    (a.update_satisfaction p g).2.1.relationship_satisfaction =
      (a.update_satisfaction p g).1 := rfl

lemma ids_eq_of_proj {l l' : List DatingAgent}
    (h : l'.map statusProj = l.map statusProj) :
    l'.map (fun a => a.id) = l.map (fun a => a.id) := by
  have hm : ∀ t : List DatingAgent,
      t.map (fun a => a.id) = (t.map statusProj).map Prod.fst := by
    intro t; rw [List.map_map]; rfl
  rw [hm, h, ← hm]

lemma sweep_state_inv {s : DatingSimulation} {aid pid : Nat}
    {agent partner1 u1' u2' : DatingAgent} {g' : RNG}
    (h : Inv s)
    (hfa : findAgent s.agents aid = some agent)
    (hfp1 : findAgent (updateAgent s.agents aid (fun _ => u1')) pid =
      some partner1)
    (hp1 : statusProj u1' = statusProj agent)
    (hp2 : statusProj u2' = statusProj partner1) :
    Inv { s with
      agents := updateAgent (updateAgent s.agents aid (fun _ => u1')) pid
        (fun _ => u2'),
      rng := g' } := by
  have hamem := findAgent_eq_some hfa
  have hA1proj : (updateAgent s.agents aid (fun _ => u1')).map statusProj =
      s.agents.map statusProj := by
    apply updateAgent_map_eq
    intro x hx hxid
    rw [hp1]
    have hxa : x = agent :=
      idsNodup_unique h.2.2.1 hx hamem.1 (hxid.trans hamem.2.symm)
    rw [hxa]
  have hids1 : ((updateAgent s.agents aid (fun _ => u1')).map
      (fun a => a.id)).Nodup := by
    rw [ids_eq_of_proj hA1proj]; exact h.2.2.1
  have hpmem := findAgent_eq_some hfp1
  have hA2proj : (updateAgent (updateAgent s.agents aid (fun _ => u1')) pid
      (fun _ => u2')).map statusProj = s.agents.map statusProj := by
    rw [← hA1proj]
    apply updateAgent_map_eq
    intro x hx hxid
    rw [hp2]
    have hxp : x = partner1 :=
      idsNodup_unique hids1 hx hpmem.1 (hxid.trans hpmem.2.symm)
    rw [hxp]
  refine inv_of_proj ?_ hA2proj h
  rfl

lemma sweepLoop_inv :
    ∀ (entries : List (Nat × Nat)) (s : DatingSimulation)
      (q : List (Nat × Nat)) (tr : List SweepEvent)
      (r : DatingSimulation × List (Nat × Nat) × List SweepEvent),
      Inv s → sweepLoop entries s q tr = some r →
      Inv r.1 ∧
      r.1.environment.relationships = s.environment.relationships ∧
      (∀ p ∈ r.2.1, p ∈ q ∨ p ∈ entries) := by
  intro entries
  induction entries with
  | nil =>
    intro s q tr r h hs
    rw [sweepLoop] at hs
    cases hs
    exact ⟨h, rfl, fun p hp => Or.inl hp⟩
  | cons e rest ih =>
    intro s q tr r h hs
    obtain ⟨aid, pid⟩ := e
    rw [sweepLoop] at hs
    cases hfa : findAgent s.agents aid with
    | none => rw [hfa] at hs; exact absurd hs (by simp)
    | some agent =>
    rw [hfa] at hs
    cases hfp : findAgent s.agents pid with
    | none => rw [hfp] at hs; exact absurd hs (by simp)
    | some partner =>
    rw [hfp] at hs
    simp only [Option.getD_some] at hs
    cases hfp1 : findAgent (updateAgent s.agents aid
        (fun _ => (agent.update_satisfaction partner s.rng).2.1)) pid with
    | none => rw [hfp1] at hs; exact absurd hs (by simp)
    | some partner1 =>
    rw [hfp1] at hs
    rcases ih _ _ _ _
      (sweep_state_inv h hfa hfp1 (update_sat_proj _ _ _) (update_sat_proj _ _ _))
      hs with ⟨h1, h2, h3⟩
    refine ⟨h1, h2, ?_⟩
    intro p hp
    rcases h3 p hp with hq | hr
    · split at hq
      · rcases List.mem_append.1 hq with hq | hq
        · exact Or.inl hq
        · simp only [List.mem_singleton] at hq
          exact Or.inr (hq ▸ List.mem_cons_self _ _)
      · exact Or.inl hq
    · exact Or.inr (List.mem_cons_of_mem _ hr)

lemma updateAgent_ids_nodup {l : List DatingAgent} {i : Nat}
    {f : DatingAgent → DatingAgent} (hf : ∀ a, (f a).id = a.id)
    (h : (l.map (fun a => a.id)).Nodup) :
    ((updateAgent l i f).map (fun a => a.id)).Nodup := by
  rw [updateAgent_map_eq (fun a _ _ => hf a)]
  exact h

lemma dictDel_eq_some {d : List (Nat × Nat)} {k : Nat} {d' : List (Nat × Nat)}
    (h : dictDel d k = some d') :
    dictMem d k = true ∧ d' = d.filter (fun p => p.1 != k) := by
  unfold dictDel at h
  by_cases hm : dictMem d k = true
  · rw [if_pos hm] at h
    cases h
    exact ⟨hm, rfl⟩
  · rw [if_neg hm] at h
    cases h

lemma two_le_length_of_mem_ne {α : Type} {l : List α} {x y : α}
    (hx : x ∈ l) (hy : y ∈ l) (hne : x ≠ y) : 2 ≤ l.length := by
  cases l with
  | nil => simp at hx
  | cons p t =>
    cases t with
    | nil =>
      simp only [List.mem_singleton] at hx hy
      rw [hx, hy] at hne
      exact absurd rfl hne
    | cons q u => simp only [List.length_cons]; omega

lemma break_inv {s : DatingSimulation} {a b : Nat} {s' : DatingSimulation}
    (h : Inv s) (_hne : a ≠ b)
    (hkey : ∀ v, (a, v) ∈ s.environment.relationships → v = b)
    (hsucc : break_relationship s a b = some s') :
    Inv s' ∧
    ∀ p ∈ s'.environment.relationships, p ∈ s.environment.relationships := by
  obtain ⟨hKN, hSym, hIds, hIff, hEven⟩ := h
  rw [break_relationship] at hsucc
  rcases Option.bind_eq_some.1 hsucc with ⟨rel1, hd1, h2⟩
  rcases Option.map_eq_some'.1 h2 with ⟨rel2, hd2, hs'⟩
  rcases dictDel_eq_some hd1 with ⟨hma, hrel1⟩
  rcases dictDel_eq_some hd2 with ⟨hmb, hrel2⟩
  subst hrel1 hrel2
  have hka : a ∈ relKeys s.environment.relationships := dictMem_true_iff.1 hma
  have hkb1 : b ∈ relKeys (s.environment.relationships.filter
      (fun p => p.1 != a)) := dictMem_true_iff.1 hmb
  have hkb : b ∈ relKeys s.environment.relationships ∧ b ≠ a :=
    mem_relKeys_filter.1 hkb1
  -- the new dict
  have hmemrel2 : ∀ p, p ∈ (s.environment.relationships.filter
        (fun p => p.1 != a)).filter (fun p => p.1 != b) ↔
      p ∈ s.environment.relationships ∧ p.1 ≠ a ∧ p.1 ≠ b := by
    intro p
    simp only [List.mem_filter, bne_iff_ne]
    tauto
  have hkeys2 : ∀ k, k ∈ relKeys ((s.environment.relationships.filter
        (fun p => p.1 != a)).filter (fun p => p.1 != b)) ↔
      k ∈ relKeys s.environment.relationships ∧ k ≠ a ∧ k ≠ b := by
    intro k
    rw [mem_relKeys_filter, mem_relKeys_filter]
    tauto
  have hab : (a, b) ∈ s.environment.relationships := by
    rcases mem_relKeys.1 hka with ⟨v, hv⟩
    have := hkey v hv
    rwa [this] at hv
  constructor
  · subst hs'
    refine ⟨?_, ?_, ?_, ?_, ?_⟩
    · exact keysNodup_filter (keysNodup_filter hKN _) _
    · -- symmetry
      intro p hp
      rcases hmemrel2 p |>.1 hp with ⟨hpm, hpa, hpb⟩
      rcases hSym p hpm with ⟨hpne, hswap⟩
      refine ⟨hpne, (hmemrel2 (p.2, p.1)).2 ⟨hswap, ?_, ?_⟩⟩
      · intro he
        have he' : p.2 = a := he
        rw [he'] at hswap
        exact hpb (hkey _ hswap)
      · intro he
        have he' : p.2 = b := he
        rw [he'] at hswap
        have hba : (b, a) ∈ s.environment.relationships :=
          (hSym (a, b) hab).2
        exact hpa (keysNodup_eq hKN hswap hba)
    · -- ids nodup
      unfold IdsNodup
      exact updateAgent_ids_nodup (fun x => rfl)
        (updateAgent_ids_nodup (fun x => rfl) hIds)
    · -- status iff
      intro x' hx'
      rcases mem_updateAgent hx' with ⟨c, hc, hcase⟩
      rcases mem_updateAgent hc with ⟨y, hy, hcasey⟩
      have hyiff := hIff y hy
      rcases hcase with ⟨hcb, rfl⟩ | ⟨hcb, rfl⟩
      · rcases hcasey with ⟨hya, rfl⟩ | ⟨hya, rfl⟩
        · -- untouched agent
          simp only []
          rw [hyiff]
          constructor
          · intro hm
            apply dictMem_true_iff.2
            rw [hkeys2]
            exact ⟨dictMem_true_iff.1 hm, hya, hcb⟩
          · intro hm
            apply dictMem_true_iff.2
            exact ((hkeys2 _).1 (dictMem_true_iff.1 hm)).1
        · -- y.id = a, status set to single
          constructor
          · intro hcon
            have hcon' : ("single" : String) = "in_relationship" := hcon
            exact absurd hcon' (by decide)
          · intro hm
            have := (hkeys2 _).1 (dictMem_true_iff.1 hm)
            exact absurd hya this.2.1
      · -- c.id = b, status set to single
        constructor
        · intro hcon
          have hcon' : ("single" : String) = "in_relationship" := hcon
          exact absurd hcon' (by decide)
        · intro hm
          have := (hkeys2 _).1 (dictMem_true_iff.1 hm)
          rcases hcasey with ⟨_, rfl⟩ | ⟨_, rfl⟩ <;>
            exact absurd hcb this.2.2
    · -- even length
      have hl1 : (s.environment.relationships.filter
          (fun p => p.1 != a)).length =
          s.environment.relationships.length - 1 :=
        length_filter_key hKN hka
      have hl2 : ((s.environment.relationships.filter
          (fun p => p.1 != a)).filter (fun p => p.1 != b)).length =
          (s.environment.relationships.filter (fun p => p.1 != a)).length - 1 :=
        length_filter_key (keysNodup_filter hKN _) hkb1
      have h2le : 2 ≤ s.environment.relationships.length := by
        have := two_le_length_of_mem_ne hka hkb.1 (fun he => hkb.2 he.symm)
        rwa [relKeys, List.length_map] at this
      rcases hEven with ⟨m, hm⟩
      refine ⟨m - 1, ?_⟩
      rw [hl2, hl1, hm]
      omega
  · -- the new dict is a subset of the old one
    intro p hp
    rw [← hs'] at hp
    exact ((hmemrel2 p).1 hp).1

lemma applyBreakups_inv :
    ∀ (q : List (Nat × Nat)) (s : DatingSimulation) (R0 : List (Nat × Nat)),
      Inv s → KeysNodup R0 → SymmRel R0 →
      (∀ p ∈ q, p ∈ R0) →
      (∀ p ∈ s.environment.relationships, p ∈ R0) →
      ∀ s', applyBreakups q s = some s' → Inv s' := by
  intro q
  induction q with
  | nil =>
    intro s R0 h _ _ _ _ s' hs
    rw [applyBreakups] at hs
    cases hs
    exact h
  | cons e rest ih =>
    intro s R0 h hKN0 hSym0 hq hsub s' hs
    obtain ⟨a, b⟩ := e
    rw [applyBreakups] at hs
    rcases Option.bind_eq_some.1 hs with ⟨s1, hb1, hrest⟩
    have habR0 : (a, b) ∈ R0 := hq _ (List.mem_cons_self _ _)
    have hne : a ≠ b := (hSym0 _ habR0).1
    have hkey : ∀ v, (a, v) ∈ s.environment.relationships → v = b := by
      intro v hv
      exact keysNodup_eq hKN0 (hsub _ hv) habR0
    rcases break_inv h hne hkey hb1 with ⟨h1, hsubset⟩
    exact ih s1 R0 h1 hKN0 hSym0 (fun p hp => hq p (List.mem_cons_of_mem _ hp))
      (fun p hp => hsub p (hsubset p hp)) s' hrest

lemma check_relationships_inv {s s' : DatingSimulation} (h : Inv s)
    (hc : check_relationships s = some s') : Inv s' := by
  unfold check_relationships at hc
  rcases Option.bind_eq_some.1 hc with ⟨r, hr, happ⟩
  rcases sweepLoop_inv _ _ _ _ _ h hr with ⟨h1, h2, h3⟩
  refine applyBreakups_inv _ _ s.environment.relationships h1 h.1 h.2.1
    ?_ ?_ _ happ
  · intro p hp
    rcases h3 p hp with hp | hp
    · simp at hp
    · exact hp
  · intro p hp
    rw [h2] at hp
    exact hp

lemma singles_mem {s : DatingSimulation} {agent x : DatingAgent}
    (hx : x ∈ single_targets s agent) :
    x ∈ s.agents ∧ x.id ≠ agent.id ∧ x.relationship_status = "single" := by
  unfold single_targets at hx
  rcases List.mem_filter.1 hx with ⟨h1, h2⟩
  simp only [Bool.and_eq_true, bne_iff_ne, beq_iff_eq] at h2
  exact ⟨h1, h2.1, h2.2⟩

lemma chosenTarget_mem {s : DatingSimulation} {agent : DatingAgent}
    (h : (single_targets s agent).isEmpty = false) :
    chosenTarget s agent ∈ single_targets s agent := by
  unfold chosenTarget
  apply getD_mem
  apply Nat.mod_lt
  apply List.length_pos.2
  intro he
  rw [he] at h
  simp at h

lemma create_inv {s : DatingSimulation} {agent target : DatingAgent}
    (h : Inv s)
    (_hAmem : agent ∈ s.agents)
    (hA : dictMem s.environment.relationships agent.id = false)
    (hTmem : target ∈ s.agents)
    (hne : target.id ≠ agent.id)
    (hts : target.relationship_status = "single") :
    Inv (create_relationship s agent target) := by
  obtain ⟨hKN, hSym, hIds, hIff, hEven⟩ := h
  have hT : dictMem s.environment.relationships target.id = false := by
    cases hdm : dictMem s.environment.relationships target.id with
    | false => rfl
    | true =>
      have := (hIff target hTmem).2 hdm
      rw [hts] at this
      exact absurd this (by decide)
  have hrel' : (create_relationship s agent target).environment.relationships =
      s.environment.relationships ++
        [(agent.id, target.id), (target.id, agent.id)] := by
    unfold create_relationship
    simp only []
    rw [dictSet_not_mem _ hA, dictSet_not_mem]
    · rw [List.append_assoc]; rfl
    · rw [dictMem_append, hT]
      simp only [Bool.false_or, dictMem, List.any_cons, List.any_nil,
        Bool.or_false]
      rw [beq_eq_false_iff_ne]
      exact fun he => hne he.symm
  have hAk : agent.id ∉ relKeys s.environment.relationships :=
    dictMem_false_iff.1 hA
  have hTk : target.id ∉ relKeys s.environment.relationships :=
    dictMem_false_iff.1 hT
  refine ⟨?_, ?_, ?_, ?_, ?_⟩
  · unfold KeysNodup
    rw [hrel', relKeys_append]
    have hr2 : relKeys [(agent.id, target.id), (target.id, agent.id)] =
        [agent.id, target.id] := rfl
    rw [hr2]
    refine List.Nodup.append hKN ?_ ?_
    · refine List.nodup_cons.2 ⟨?_, List.nodup_singleton _⟩
      simp only [List.mem_singleton]
      exact fun he => hne he.symm
    · intro x hx hx2
      simp only [List.mem_cons, List.not_mem_nil, or_false] at hx2
      rcases hx2 with h2 | h2
      · exact hAk (h2 ▸ hx)
      · exact hTk (h2 ▸ hx)
  · intro p hp
    rw [hrel'] at hp
    rcases List.mem_append.1 hp with hp | hp
    · rcases hSym p hp with ⟨h1, h2⟩
      exact ⟨h1, by rw [hrel']; exact List.mem_append_left _ h2⟩
    · simp only [List.mem_cons, List.mem_singleton] at hp
      rcases hp with rfl | rfl | hfalse
      · exact ⟨fun he => hne he.symm, by
          rw [hrel']
          refine List.mem_append_right _ ?_
          simp⟩
      · exact ⟨hne, by
          rw [hrel']
          refine List.mem_append_right _ ?_
          simp⟩
      · exact absurd hfalse (List.not_mem_nil _)
  · unfold IdsNodup
    exact updateAgent_ids_nodup (fun x => rfl)
      (updateAgent_ids_nodup (fun x => rfl) hIds)
  · intro x' hx'
    rcases mem_updateAgent hx' with ⟨c, hc, hcase⟩
    rcases mem_updateAgent hc with ⟨y, hy, hcasey⟩
    have hkeymem : ∀ k, dictMem (create_relationship s agent
        target).environment.relationships k = true ↔
        dictMem s.environment.relationships k = true ∨
        k = agent.id ∨ k = target.id := by
      intro k
      rw [hrel', dictMem_append, Bool.or_eq_true]
      constructor
      · rintro (hk | hk)
        · exact Or.inl hk
        · simp only [dictMem, List.any_cons, List.any_nil, Bool.or_false,
            Bool.or_eq_true, beq_iff_eq, decide_eq_true_eq] at hk
          rcases hk with hk | hk
          · exact Or.inr (Or.inl hk.symm)
          · exact Or.inr (Or.inr hk.symm)
      · rintro (hk | rfl | rfl)
        · exact Or.inl hk
        · right
          simp [dictMem]
        · right
          simp [dictMem]
    rcases hcase with ⟨hcb, hxc⟩ | ⟨hcb, hxc⟩
    · rcases hcasey with ⟨hya, hcy⟩ | ⟨hya, hcy⟩
      · -- untouched
        subst hxc
        subst hcy
        rw [hkeymem, hIff _ hy]
        constructor
        · exact Or.inl
        · rintro (hm | he | he)
          · exact hm
          · exact absurd he hya
          · exact absurd he hcb
      · -- y.id = agent.id: status in_relationship
        subst hxc
        subst hcy
        constructor
        · intro _
          rw [hkeymem]
          exact Or.inr (Or.inl hya)
        · intro _; rfl
    · -- c.id = target.id: status in_relationship
      subst hxc
      constructor
      · intro _
        rw [hkeymem]
        exact Or.inr (Or.inr hcb)
      · intro _; rfl
  · rw [hrel', List.length_append]
    have h2 : ([(agent.id, target.id), (target.id, agent.id)]).length = 2 := rfl
    rw [h2]
    exact hEven.add ⟨1, rfl⟩

lemma processAction_inv (s : DatingSimulation) (p : Nat × Action)
    (h : Inv s) : Inv (processAction s p) := by
  unfold processAction
  cases hf : findAgent s.agents p.1 with
  | none => exact h
  | some agent =>
  simp only []
  split
  next => exact h
  next hvalid =>
  have hv : s.environment.is_valid_action agent p.2 = true := by
    revert hvalid
    cases s.environment.is_valid_action agent p.2 <;> simp
  split
  next hexpress =>
    split
    next => exact h
    next hempty =>
      refine inv_of_proj ?_ ?_ h <;> rfl
  next hnexpress =>
  split
  next hrequest =>
    split
    next => exact h
    next hempty =>
      have hempty' : (single_targets s agent).isEmpty = false := by
        revert hempty
        cases (single_targets s agent).isEmpty <;> simp
      have htm := singles_mem (chosenTarget_mem hempty')
      have hA : dictMem s.environment.relationships agent.id = false := by
        unfold DatingEnvironment.is_valid_action at hv
        rw [if_pos hrequest, Bool.and_eq_true] at hv
        obtain ⟨h1, _⟩ := hv
        revert h1
        cases dictMem s.environment.relationships agent.id <;> simp
      split
      next hcompat =>
        have hs1 : Inv { s with
            rng := (s.rng.choiceIdx (single_targets s agent).length).2 } := by
          refine inv_of_proj ?_ ?_ h <;> rfl
        have hC := @create_inv
          { s with rng := (s.rng.choiceIdx (single_targets s agent).length).2 }
          agent (chosenTarget s agent) hs1 (findAgent_eq_some hf).1 hA htm.1
          htm.2.1 htm.2.2
        refine inv_of_proj ?_ ?_ hC <;> rfl
      next =>
        refine inv_of_proj ?_ ?_ h <;> rfl
  next => exact h

lemma foldl_processAction_inv :
    ∀ (l : List (Nat × Action)) (s : DatingSimulation), Inv s →
      Inv (l.foldl processAction s) := by
  intro l
  induction l with
  | nil => intro s h; exact h
  | cons p rest ih => intro s h; exact ih _ (processAction_inv _ _ h)

lemma step_inv {s s' : DatingSimulation} (h : Inv s)
    (hs : step s = some s') : Inv s' := by
  unfold step at hs
  rcases Option.map_eq_some'.1 hs with ⟨s3, hc, he⟩
  have h1 : Inv { s with
      agents := (collectActions s.agents s.environment s.rng).1,
      rng := (collectActions s.agents s.environment s.rng).2.2 } := by
    refine inv_of_proj ?_ ?_ h
    · rfl
    · exact forall₂_proj (collectActions_sameCore s.agents s.environment s.rng)
  have h2 := foldl_processAction_inv
    ((collectActions s.agents s.environment s.rng).2.1) _ h1
  have h3 := check_relationships_inv h2 hc
  rw [← he]
  refine inv_of_proj ?_ ?_ h3 <;> rfl

lemma run_inv : ∀ (N : Nat) {s s' : DatingSimulation}, Inv s →
    run N s = some s' → Inv s' := by
  intro N
  induction N with
  | zero =>
    intro s s' h hs
    rw [run] at hs
    cases hs
    exact h
  | succ n ih =>
    intro s s' h hs
    rw [run] at hs
    rcases Option.bind_eq_some.1 hs with ⟨s1, h1, h2⟩
    exact ih (step_inv h h1) h2

lemma update_sat_bounds (a p : DatingAgent) (g : RNG) :
    0 ≤ (a.update_satisfaction p g).1 ∧ (a.update_satisfaction p g).1 ≤ 1 := by
  unfold DatingAgent.update_satisfaction
  simp only []
  constructor
  · exact le_max_left 0 _
  · apply max_le
    · norm_num
    · exact le_trans (min_le_left _ _) (by norm_num)

lemma agentBounded_update_sat {a : DatingAgent} (p : DatingAgent) (g : RNG)
    (h : AgentBounded a) : AgentBounded (a.update_satisfaction p g).2.1 := by
  refine ⟨?_, ?_, ?_⟩
  · rw [update_sat_value]; exact (update_sat_bounds a p g).1
  · rw [update_sat_value]; exact (update_sat_bounds a p g).2
  · intro t; rw [update_sat_personality]; exact h.2.2 t

lemma sameCore_bounded {a b : DatingAgent} (hc : SameCore a b)
    (h : AgentBounded a) : AgentBounded b := by
  obtain ⟨_, hp, _, _, hs⟩ := hc
  refine ⟨?_, ?_, ?_⟩
  · rw [hs]; exact h.1
  · rw [hs]; exact h.2.1
  · intro t; rw [hp]; exact h.2.2 t

lemma bounds_updateAgent {l : List DatingAgent} {i : Nat}
    {f : DatingAgent → DatingAgent}
    (h : ∀ a ∈ l, AgentBounded a)
    (hf : ∀ a ∈ l, AgentBounded a → AgentBounded (f a)) :
    ∀ b ∈ updateAgent l i f, AgentBounded b := by
  intro b hb
  rcases mem_updateAgent hb with ⟨a, ha, hcase⟩
  rcases hcase with ⟨_, he⟩ | ⟨_, he⟩
  · exact he ▸ h a ha
  · exact he ▸ hf a ha (h a ha)

lemma sweepLoop_bounds :
    ∀ (entries : List (Nat × Nat)) (s : DatingSimulation)
      (q : List (Nat × Nat)) (tr : List SweepEvent)
      (r : DatingSimulation × List (Nat × Nat) × List SweepEvent),
      Bounds s → sweepLoop entries s q tr = some r → Bounds r.1 := by
  intro entries
  induction entries with
  | nil =>
    intro s q tr r h hs
    rw [sweepLoop] at hs
    cases hs
    exact h
  | cons e rest ih =>
    intro s q tr r h hs
    obtain ⟨aid, pid⟩ := e
    rw [sweepLoop] at hs
    cases hfa : findAgent s.agents aid with
    | none => rw [hfa] at hs; exact absurd hs (by simp)
    | some agent =>
    rw [hfa] at hs
    cases hfp : findAgent s.agents pid with
    | none => rw [hfp] at hs; exact absurd hs (by simp)
    | some partner =>
    rw [hfp] at hs
    simp only [Option.getD_some] at hs
    cases hfp1 : findAgent (updateAgent s.agents aid
        (fun _ => (agent.update_satisfaction partner s.rng).2.1)) pid with
    | none => rw [hfp1] at hs; exact absurd hs (by simp)
    | some partner1 =>
    rw [hfp1] at hs
    have hb1 : ∀ b ∈ updateAgent s.agents aid
        (fun _ => (agent.update_satisfaction partner s.rng).2.1),
        AgentBounded b :=
      bounds_updateAgent h (fun x hx _ =>
        agentBounded_update_sat _ _ (h agent (findAgent_eq_some hfa).1))
    have hb2 : ∀ b ∈ updateAgent (updateAgent s.agents aid
        (fun _ => (agent.update_satisfaction partner s.rng).2.1)) pid
        (fun _ => (partner1.update_satisfaction
          (agent.update_satisfaction partner s.rng).2.1
          (agent.update_satisfaction partner s.rng).2.2).2.1),
        AgentBounded b :=
      bounds_updateAgent hb1 (fun x hx _ =>
        agentBounded_update_sat _ _ (hb1 partner1 (findAgent_eq_some hfp1).1))
    exact ih _ _ _ _ (fun b hb => hb2 b hb) hs

lemma break_bounds {s s' : DatingSimulation} {a b : Nat} (h : Bounds s)
    (hsucc : break_relationship s a b = some s') : Bounds s' := by
  rw [break_relationship] at hsucc
  rcases Option.bind_eq_some.1 hsucc with ⟨rel1, _, h2⟩
  rcases Option.map_eq_some'.1 h2 with ⟨rel2, _, hs'⟩
  rw [← hs']
  intro x hx
  refine bounds_updateAgent (bounds_updateAgent h ?_) ?_ x hx <;>
  · intro c _ hc
    exact ⟨by norm_num, by norm_num, hc.2.2⟩

lemma applyBreakups_bounds :
    ∀ (q : List (Nat × Nat)) (s : DatingSimulation) (s' : DatingSimulation),
      Bounds s → applyBreakups q s = some s' → Bounds s' := by
  intro q
  induction q with
  | nil =>
    intro s s' h hs
    rw [applyBreakups] at hs
    cases hs
    exact h
  | cons e rest ih =>
    intro s s' h hs
    obtain ⟨a, b⟩ := e
    rw [applyBreakups] at hs
    rcases Option.bind_eq_some.1 hs with ⟨s1, hb1, hrest⟩
    exact ih s1 s' (break_bounds h hb1) hrest

lemma check_relationships_bounds {s s' : DatingSimulation} (h : Bounds s)
    (hc : check_relationships s = some s') : Bounds s' := by
  unfold check_relationships at hc
  rcases Option.bind_eq_some.1 hc with ⟨r, hr, happ⟩
  exact applyBreakups_bounds _ _ _ (sweepLoop_bounds _ _ _ _ _ h hr) happ

lemma bounds_of_agents_eq {s s' : DatingSimulation}
    (hag : s'.agents = s.agents) (h : Bounds s) : Bounds s' := by
  intro a ha
  exact h a (hag ▸ ha)

lemma processAction_bounds (s : DatingSimulation) (p : Nat × Action)
    (h : Bounds s) : Bounds (processAction s p) := by
  unfold processAction
  cases hf : findAgent s.agents p.1 with
  | none => exact h
  | some agent =>
  simp only []
  split
  next => exact h
  next =>
  split
  next =>
    split
    next => exact h
    next => exact bounds_of_agents_eq rfl h
  next =>
  split
  next =>
    split
    next => exact h
    next =>
      split
      next =>
        intro x hx
        refine bounds_updateAgent (bounds_updateAgent h ?_) ?_ x hx <;>
        · intro c _ hc
          exact ⟨hc.1, hc.2.1, hc.2.2⟩
      next => exact bounds_of_agents_eq rfl h
  next => exact h

lemma foldl_processAction_bounds :
    ∀ (l : List (Nat × Action)) (s : DatingSimulation), Bounds s →
      Bounds (l.foldl processAction s) := by
  intro l
  induction l with
  | nil => intro s h; exact h
  | cons p rest ih => intro s h; exact ih _ (processAction_bounds _ _ h)

lemma step_bounds {s s' : DatingSimulation} (h : Bounds s)
    (hs : step s = some s') : Bounds s' := by
  unfold step at hs
  rcases Option.map_eq_some'.1 hs with ⟨s3, hc, he⟩
  have h1 : Bounds { s with
      agents := (collectActions s.agents s.environment s.rng).1,
      rng := (collectActions s.agents s.environment s.rng).2.2 } := by
    intro b hb
    rcases forall₂_mem (collectActions_sameCore s.agents s.environment s.rng)
      b hb with ⟨a, ha, hc2⟩
    exact sameCore_bounded hc2 (h a ha)
  have h2 := foldl_processAction_bounds
    ((collectActions s.agents s.environment s.rng).2.1) _ h1
  have h3 := check_relationships_bounds h2 hc
  rw [← he]
  exact bounds_of_agents_eq rfl h3

lemma run_bounds : ∀ (N : Nat) {s s' : DatingSimulation}, Bounds s →
    run N s = some s' → Bounds s' := by
  intro N
  induction N with
  | zero =>
    intro s s' h hs
    rw [run] at hs
    cases hs
    exact h
  | succ n ih =>
    intro s s' h hs
    rw [run] at hs
    rcases Option.bind_eq_some.1 hs with ⟨s1, h1, h2⟩
    exact ih (step_bounds h h1) h2

lemma streamBounded_gForm : StreamBounded gForm := by
  intro n
  simp only [gForm]
  split <;> norm_num
  split <;> norm_num

lemma sweep_update_proj {s : DatingSimulation} {aid pid : Nat}
    {agent partner1 u1' u2' : DatingAgent}
    (hids : (s.agents.map (fun a => a.id)).Nodup)
    (hfa : findAgent s.agents aid = some agent)
    (hfp1 : findAgent (updateAgent s.agents aid (fun _ => u1')) pid =
      some partner1)
    (hp1 : statusProj u1' = statusProj agent)
    (hp2 : statusProj u2' = statusProj partner1) :
    (updateAgent (updateAgent s.agents aid (fun _ => u1')) pid
      (fun _ => u2')).map statusProj = s.agents.map statusProj := by
  have hamem := findAgent_eq_some hfa
  have hA1proj : (updateAgent s.agents aid (fun _ => u1')).map statusProj =
      s.agents.map statusProj := by
    apply updateAgent_map_eq
    intro x hx hxid
    rw [hp1]
    have hxa : x = agent :=
      idsNodup_unique hids hx hamem.1 (hxid.trans hamem.2.symm)
    rw [hxa]
  have hids1 : ((updateAgent s.agents aid (fun _ => u1')).map
      (fun a => a.id)).Nodup := by
    rw [ids_eq_of_proj hA1proj]; exact hids
  have hpmem := findAgent_eq_some hfp1
  rw [← hA1proj]
  apply updateAgent_map_eq
  intro x hx hxid
  rw [hp2]
  have hxp : x = partner1 :=
    idsNodup_unique hids1 hx hpmem.1 (hxid.trans hpmem.2.symm)
  rw [hxp]

lemma sweepLoop_proj :
    ∀ (entries : List (Nat × Nat)) (s : DatingSimulation)
      (q : List (Nat × Nat)) (tr : List SweepEvent)
      (r : DatingSimulation × List (Nat × Nat) × List SweepEvent),
      (s.agents.map (fun a => a.id)).Nodup →
      sweepLoop entries s q tr = some r →
      r.1.agents.map statusProj = s.agents.map statusProj := by
  intro entries
  induction entries with
  | nil =>
    intro s q tr r _ hs
    rw [sweepLoop] at hs
    cases hs
    rfl
  | cons e rest ih =>
    intro s q tr r hids hs
    obtain ⟨aid, pid⟩ := e
    rw [sweepLoop] at hs
    cases hfa : findAgent s.agents aid with
    | none => rw [hfa] at hs; exact absurd hs (by simp)
    | some agent =>
    rw [hfa] at hs
    cases hfp : findAgent s.agents pid with
    | none => rw [hfp] at hs; exact absurd hs (by simp)
    | some partner =>
    rw [hfp] at hs
    simp only [Option.getD_some] at hs
    cases hfp1 : findAgent (updateAgent s.agents aid
        (fun _ => (agent.update_satisfaction partner s.rng).2.1)) pid with
    | none => rw [hfp1] at hs; exact absurd hs (by simp)
    | some partner1 =>
    rw [hfp1] at hs
    have hproj := sweep_update_proj hids hfa hfp1
      (update_sat_proj agent partner s.rng)
      (update_sat_proj partner1
        (agent.update_satisfaction partner s.rng).2.1
        (agent.update_satisfaction partner s.rng).2.2)
    have hids2 : ((updateAgent (updateAgent s.agents aid
        (fun _ => (agent.update_satisfaction partner s.rng).2.1)) pid
        (fun _ => (partner1.update_satisfaction
          (agent.update_satisfaction partner s.rng).2.1
          (agent.update_satisfaction partner s.rng).2.2).2.1)).map
            (fun a => a.id)).Nodup := by
      rw [ids_eq_of_proj hproj]; exact hids
    have := ih _ _ _ _ hids2 hs
    rw [this]
    exact hproj

lemma proj_status_mem {l l' : List DatingAgent}
    (hmap : l'.map statusProj = l.map statusProj) :
    ∀ x ∈ l', ∃ y ∈ l, y.id = x.id ∧
      y.relationship_status = x.relationship_status := by
  intro x hx
  have hm : statusProj x ∈ l.map statusProj := by
    rw [← hmap]; exact List.mem_map_of_mem _ hx
  rcases List.mem_map.1 hm with ⟨y, hy, he⟩
  exact ⟨y, hy, congrArg Prod.fst he, congrArg Prod.snd he⟩

lemma break_status {s s' : DatingSimulation} {a b : Nat}
    (hsucc : break_relationship s a b = some s') :
    ∀ x ∈ s'.agents, x.relationship_status = "in_relationship" →
      ∃ y ∈ s.agents, y.id = x.id ∧
        y.relationship_status = "in_relationship" := by
  rw [break_relationship] at hsucc
  rcases Option.bind_eq_some.1 hsucc with ⟨rel1, _, h2⟩
  rcases Option.map_eq_some'.1 h2 with ⟨rel2, _, hs'⟩
  rw [← hs']
  intro x hx hst
  rcases mem_updateAgent hx with ⟨c, hc, hcase⟩
  rcases hcase with ⟨_, he⟩ | ⟨_, he⟩
  · rcases mem_updateAgent hc with ⟨y, hy, hcasey⟩
    rcases hcasey with ⟨_, hey⟩ | ⟨_, hey⟩
    · subst he; subst hey
      exact ⟨_, hy, rfl, hst⟩
    · subst he; subst hey
      have : ("single" : String) = "in_relationship" := hst
      exact absurd this (by decide)
  · subst he
    have : ("single" : String) = "in_relationship" := hst
    exact absurd this (by decide)

lemma applyBreakups_status :
    ∀ (q : List (Nat × Nat)) (s s' : DatingSimulation),
      applyBreakups q s = some s' →
      ∀ x ∈ s'.agents, x.relationship_status = "in_relationship" →
        ∃ y ∈ s.agents, y.id = x.id ∧
          y.relationship_status = "in_relationship" := by
  intro q
  induction q with
  | nil =>
    intro s s' hs x hx hst
    rw [applyBreakups] at hs
    cases hs
    exact ⟨x, hx, rfl, hst⟩
  | cons e rest ih =>
    intro s s' hs x hx hst
    obtain ⟨a, b⟩ := e
    rw [applyBreakups] at hs
    rcases Option.bind_eq_some.1 hs with ⟨s1, hb1, hrest⟩
    rcases ih s1 s' hrest x hx hst with ⟨y, hy, hid, hsty⟩
    rcases break_status hb1 y hy hsty with ⟨z, hz, hidz, hstz⟩
    exact ⟨z, hz, hidz.trans hid, hstz⟩

lemma check_relationships_status {s s' : DatingSimulation}
    (hids : (s.agents.map (fun a => a.id)).Nodup)
    (hc : check_relationships s = some s') :
    ∀ x ∈ s'.agents, x.relationship_status = "in_relationship" →
      ∃ y ∈ s.agents, y.id = x.id ∧
        y.relationship_status = "in_relationship" := by
  unfold check_relationships at hc
  rcases Option.bind_eq_some.1 hc with ⟨r, hr, happ⟩
  have hproj := sweepLoop_proj _ _ _ _ _ hids hr
  intro x hx hst
  rcases applyBreakups_status _ _ _ happ x hx hst with ⟨y, hy, hid, hsty⟩
  rcases proj_status_mem hproj y hy with ⟨z, hz, hidz, hstz⟩
  exact ⟨z, hz, hidz.trans hid, hstz.trans hsty⟩

lemma processAction_express (s : DatingSimulation) (p : Nat × Action)
    (hty : p.2.type = .EXPRESS_INTEREST) :
    (processAction s p).agents = s.agents ∧
    (processAction s p).environment.relationships =
      s.environment.relationships ∧
    (processAction s p).stats.dates_arranged = s.stats.dates_arranged ∧
    (processAction s p).stats.relationships_formed =
      s.stats.relationships_formed ∧
    ((processAction s p).stats.messages_sent = s.stats.messages_sent ∨
     (processAction s p).stats.messages_sent = s.stats.messages_sent + 1) := by
  unfold processAction
  cases hf : findAgent s.agents p.1 with
  | none => exact ⟨rfl, rfl, rfl, rfl, Or.inl rfl⟩
  | some agent =>
  simp only []
  split
  next => exact ⟨rfl, rfl, rfl, rfl, Or.inl rfl⟩
  next =>
  split
  next =>
    split
    next => exact ⟨rfl, rfl, rfl, rfl, Or.inl rfl⟩
    next => exact ⟨rfl, rfl, rfl, rfl, Or.inr rfl⟩
  next hne =>
    exact absurd (by rw [hty]; rfl) hne

lemma processAction_request_creates (s : DatingSimulation)
    (p : Nat × Action) (agent : DatingAgent)
    (hty : p.2.type = .REQUEST_DATE)
    (hf : findAgent s.agents p.1 = some agent)
    (hv : s.environment.is_valid_action agent p.2 = true)
    (hne : (single_targets s agent).isEmpty = false)
    (hcompat : agent.calculate_compatibility (chosenTarget s agent) > 0.7) :
    (processAction s p).environment.relationships =
      dictSet (dictSet s.environment.relationships agent.id
        (chosenTarget s agent).id) (chosenTarget s agent).id agent.id ∧
    (∀ b ∈ (processAction s p).agents,
      (b.id = agent.id ∨ b.id = (chosenTarget s agent).id) →
      b.relationship_status = "in_relationship") ∧
    (processAction s p).stats.relationships_formed =
      s.stats.relationships_formed + 1 ∧
    (processAction s p).stats.dates_arranged = s.stats.dates_arranged + 1 ∧
    (processAction s p).stats.messages_sent = s.stats.messages_sent := by
  unfold processAction
  rw [hf]
  simp only [hty, hv, hne, Bool.not_true]
  rw [if_neg (by simp)]
  rw [if_neg (by simp)]
  rw [if_pos (by rfl)]
  rw [if_neg (by simp)]
  rw [if_pos hcompat]
  refine ⟨rfl, ?_, rfl, rfl, rfl⟩
  intro b hb hid
  rcases mem_updateAgent hb with ⟨c, hc, hcase⟩
  rcases hcase with ⟨hcb, he⟩ | ⟨_, he⟩
  · rcases mem_updateAgent hc with ⟨y, hy, hcasey⟩
    rcases hcasey with ⟨hya, hey⟩ | ⟨hya, hey⟩
    · subst he; subst hey
      rcases hid with hid | hid
      · exact absurd hid hya
      · exact absurd hid hcb
    · subst he; subst hey
      rfl
  · subst he
    rfl

lemma processAction_status_source (s : DatingSimulation) (p : Nat × Action) :
    ∀ b ∈ (processAction s p).agents,
      b.relationship_status = "in_relationship" →
      (∃ a ∈ s.agents, a.id = b.id ∧
        a.relationship_status = "in_relationship") ∨
      (p.2.type = .REQUEST_DATE ∧
       ∃ agent, findAgent s.agents p.1 = some agent ∧
         agent.calculate_compatibility (chosenTarget s agent) > 0.7 ∧
         (b.id = agent.id ∨ b.id = (chosenTarget s agent).id)) := by
  unfold processAction
  cases hf : findAgent s.agents p.1 with
  | none => intro b hb hst; exact Or.inl ⟨b, hb, rfl, hst⟩
  | some agent =>
  simp only []
  split
  next => intro b hb hst; exact Or.inl ⟨b, hb, rfl, hst⟩
  next =>
  split
  next =>
    split
    next => intro b hb hst; exact Or.inl ⟨b, hb, rfl, hst⟩
    next => intro b hb hst; exact Or.inl ⟨b, hb, rfl, hst⟩
  next =>
  split
  next hrequest =>
    split
    next => intro b hb hst; exact Or.inl ⟨b, hb, rfl, hst⟩
    next =>
      split
      next hcompat =>
        intro b hb hst
        rcases mem_updateAgent hb with ⟨c, hc, hcase⟩
        rcases hcase with ⟨hcb, he⟩ | ⟨hcb, he⟩
        · rcases mem_updateAgent hc with ⟨y, hy, hcasey⟩
          rcases hcasey with ⟨hya, hey⟩ | ⟨hya, hey⟩
          · subst he; subst hey
            exact Or.inl ⟨_, hy, rfl, hst⟩
          · subst he; subst hey
            exact Or.inr ⟨beq_iff_eq.1 hrequest, agent, rfl, hcompat,
              Or.inl hya⟩
        · subst he
          exact Or.inr ⟨beq_iff_eq.1 hrequest, agent, rfl, hcompat,
            Or.inr hcb⟩
      next => intro b hb hst; exact Or.inl ⟨b, hb, rfl, hst⟩
  next => intro b hb hst; exact Or.inl ⟨b, hb, rfl, hst⟩

lemma buildAgents_ids (names : List String) (n : Nat) :
    ∀ (i : Nat) (g : RNG),
      ((buildAgents names i n g).1).map (fun a => a.id) = List.range' i n := by
  induction n with
  | zero => intro i g; simp [buildAgents]
  | succ n ih =>
    intro i g
    rw [buildAgents, List.range'_succ]
    simp only [List.map_cons]
    rw [mkInit_agent_id, ih]

lemma buildAgents_status (names : List String) (n : Nat) :
    ∀ (i : Nat) (g : RNG) (a : DatingAgent),
      a ∈ (buildAgents names i n g).1 → a.relationship_status = "single" := by
  induction n with
  | zero => intro i g a ha; simp [buildAgents] at ha
  | succ n ih =>
    intro i g a ha
    rw [buildAgents] at ha
    rcases List.mem_cons.1 ha with h | h
    · subst h; exact mkInit_agent_status _ _ _
    · exact ih _ _ _ h

lemma buildAgents_stream (names : List String) (n : Nat) :
    ∀ (i : Nat) (g : RNG), ((buildAgents names i n g).2).stream = g.stream := by
  induction n with
  | zero => intro i g; rfl
  | succ n ih =>
    intro i g
    rw [buildAgents]
    rw [ih, mkInit_agent_stream]

lemma buildAgents_bounded (names : List String) (n : Nat) :
    ∀ (i : Nat) (g : RNG), StreamBounded g →
      ∀ a ∈ (buildAgents names i n g).1, AgentBounded a := by
  induction n with
  | zero => intro i g _ a ha; simp [buildAgents] at ha
  | succ n ih =>
    intro i g hg a ha
    rw [buildAgents] at ha
    rcases List.mem_cons.1 ha with h | h
    · subst h; exact mkInit_agent_bounded hg _ _
    · exact ih _ _ (streamBounded_of_eq (mkInit_agent_stream _ _ _) hg) _ h

lemma mkInit_sim_relationships (n : ℤ) (g : RNG) :
    (DatingSimulation.mkInit n g).environment.relationships = [] := rfl

lemma mkInit_sim_agents (n : ℤ) (g : RNG) :
    (DatingSimulation.mkInit n g).agents =
      (buildAgents (shuffle namePool g).1 0 n.toNat (shuffle namePool g).2).1 :=
  rfl

lemma mkInit_sim_inv (n : ℤ) (g : RNG) : Inv (DatingSimulation.mkInit n g) := by
  refine ⟨by simp [KeysNodup, relKeys, mkInit_sim_relationships],
    by intro p hp; simp [mkInit_sim_relationships] at hp,
    ?_, ?_, by simp [mkInit_sim_relationships]⟩
  · unfold IdsNodup
    rw [mkInit_sim_agents, buildAgents_ids]
    exact List.nodup_range' _ _
  · intro a ha
    rw [mkInit_sim_agents] at ha
    have := buildAgents_status _ _ _ _ _ ha
    rw [mkInit_sim_relationships]
    constructor
    · intro h; rw [this] at h; exact absurd h (by decide)
    · intro h; simp [dictMem] at h

lemma mkInit_sim_bounds {g : RNG} (hg : StreamBounded g) (n : ℤ) :
    Bounds (DatingSimulation.mkInit n g) := by
  intro a ha
  rw [mkInit_sim_agents] at ha
  refine buildAgents_bounded _ _ _ _ ?_ _ ha
  exact streamBounded_of_eq (sampleAux_stream _ _ _) hg

/-! ## Claim theorems -/

/-- C7: `calculate_compatibility` is symmetric: for any two agents A and B,
`A.calculate_compatibility(B)` equals `B.calculate_compatibility(A)`. -/
theorem C7_compatibility_symmetric (a b : DatingAgent) :
    a.calculate_compatibility b = b.calculate_compatibility a := by
  unfold DatingAgent.calculate_compatibility
  rw [Finset.inter_comm]
  simp only [personalityTraits, List.map_cons, List.map_nil, List.sum_cons,
    List.sum_nil, abs_sub_comm]

/-- C6: `calculate_compatibility` returns
`0.5 * (1 - (Σ over the three traits |self.t - other.t|) / 3) +
 0.5 * (|self.interests ∩ other.interests| / 5)`, and the value lies in
`[0, 1]` whenever both agents have trait scores in `[0, 1]` and at most 5
distinct interests. -/
theorem C6_compatibility_formula (a b : DatingAgent)
    (ha : ∀ t, 0 ≤ a.personality t ∧ a.personality t ≤ 1)
    (hb : ∀ t, 0 ≤ b.personality t ∧ b.personality t ≤ 1)
    (hca : a.interests.toFinset.card ≤ 5)
    (_hcb : b.interests.toFinset.card ≤ 5) :
    a.calculate_compatibility b =
      0.5 * (1 -
        (|a.personality .OPENNESS - b.personality .OPENNESS| +
         |a.personality .EXTRAVERSION - b.personality .EXTRAVERSION| +
         |a.personality .AGREEABLENESS - b.personality .AGREEABLENESS|) / 3) +
      0.5 * (((a.interests.toFinset ∩ b.interests.toFinset).card : ℚ) / 5) ∧
    0 ≤ a.calculate_compatibility b ∧ a.calculate_compatibility b ≤ 1 := by
  have hfor : a.calculate_compatibility b =
      0.5 * (1 -
        (|a.personality .OPENNESS - b.personality .OPENNESS| +
         |a.personality .EXTRAVERSION - b.personality .EXTRAVERSION| +
         |a.personality .AGREEABLENESS - b.personality .AGREEABLENESS|) / 3) +
      0.5 * (((a.interests.toFinset ∩ b.interests.toFinset).card : ℚ) / 5) := by
    unfold DatingAgent.calculate_compatibility
    simp only [personalityTraits, List.map_cons, List.map_nil, List.sum_cons,
      List.sum_nil, List.length_cons, List.length_nil]
    push_cast
    ring
  have habs : ∀ t, |a.personality t - b.personality t| ≤ 1 := by
    intro t
    rcases ha t with ⟨ha0, ha1⟩
    rcases hb t with ⟨hb0, hb1⟩
    rw [abs_le]
    constructor <;> linarith
  have habs0 : ∀ t, 0 ≤ |a.personality t - b.personality t| :=
    fun t => abs_nonneg _
  have hcard : ((a.interests.toFinset ∩ b.interests.toFinset).card : ℚ) ≤ 5 := by
    have h1 : (a.interests.toFinset ∩ b.interests.toFinset).card ≤ 5 :=
      le_trans (Finset.card_le_card Finset.inter_subset_left) hca
    exact_mod_cast h1
  have hcard0 : (0 : ℚ) ≤ ((a.interests.toFinset ∩ b.interests.toFinset).card : ℚ) :=
    Nat.cast_nonneg _
  refine ⟨hfor, ?_, ?_⟩
  · rw [hfor]
    have h1 := habs .OPENNESS
    have h2 := habs .EXTRAVERSION
    have h3 := habs .AGREEABLENESS
    have h4 := habs0 .OPENNESS
    have h5 := habs0 .EXTRAVERSION
    have h6 := habs0 .AGREEABLENESS
    linarith
  · rw [hfor]
    have h4 := habs0 .OPENNESS
    have h5 := habs0 .EXTRAVERSION
    have h6 := habs0 .AGREEABLENESS
    linarith

unseal Rat.add Rat.mul Rat.inv Rat.sub Rat.ofScientific in
theorem C6_compatibility_formula_witness :
    agentA.calculate_compatibility agentB =
      0.5 * (1 -
        (|agentA.personality .OPENNESS - agentB.personality .OPENNESS| +
         |agentA.personality .EXTRAVERSION - agentB.personality .EXTRAVERSION| +
         |agentA.personality .AGREEABLENESS - agentB.personality .AGREEABLENESS|) / 3) +
      0.5 * (((agentA.interests.toFinset ∩ agentB.interests.toFinset).card : ℚ) / 5) ∧
    0 ≤ agentA.calculate_compatibility agentB ∧
    agentA.calculate_compatibility agentB ≤ 1 :=
  C6_compatibility_formula agentA agentB (by decide) (by decide)
    (by decide) (by decide)

/-- C8: the claim says construction with a non-positive population size
fails fast; the code does not: `DatingSimulation(0)` and
`DatingSimulation(-5)` construct an agentless but otherwise ordinary
simulation and raise nothing. -/
theorem C8_construction_not_failfast :
    (DatingSimulation.mkInit 0 gHalf).agents = [] ∧
    (DatingSimulation.mkInit (-5) gHalf).agents = [] ∧
    (DatingSimulation.mkInit 0 gHalf).stats = ⟨0, 0, 0⟩ ∧
    (DatingSimulation.mkInit (-5) gHalf).environment.relationships = [] :=
  ⟨rfl, rfl, rfl, rfl⟩

/-- C9: two runs of `N` ticks from the same seed (same rng state) and the
same population size produce identical stats trajectories at every tick. -/
theorem C9_seeded_determinism (n : ℤ) (g1 g2 : RNG) (h : g1 = g2) (k : Nat) :
    statsAfter (DatingSimulation.mkInit n g1) k =
      statsAfter (DatingSimulation.mkInit n g2) k := by
  subst h; rfl

theorem C9_seeded_determinism_witness :
    statsAfter (DatingSimulation.mkInit 2 gHalf) 3 =
      statsAfter (DatingSimulation.mkInit 2 gHalf) 3 :=
  C9_seeded_determinism 2 gHalf gHalf rfl 3

unseal Rat.add Rat.mul Rat.inv Rat.sub Rat.ofScientific in
/-- C1: on a state holding one couple (both directional dict entries, as
`_create_relationship` writes them), the breakup sweep calls
`update_satisfaction` twice per side (not once) and draws the breakup
chance twice for the pair (once per directional entry, not once per pair),
because `_check_relationships` iterates over both directions of the dict;
the state satisfies every structural invariant. -/
theorem C1_sweep_double_visit :
    (sweepLoop cSweep.environment.relationships cSweep [] []).map
        (fun r => ((r.2.2).count (.updSat 0), (r.2.2).count (.updSat 1),
                   (r.2.2).count (.breakupDraw 0 1),
                   (r.2.2).count (.breakupDraw 1 0))) =
      some (2, 2, 1, 1) ∧
    (2 ≠ 1 ∧ (1 : Nat) + 1 ≠ 1) ∧ Inv cSweep := by
  refine ⟨?_, by decide, by decide⟩
  set_option maxRecDepth 2000 in decide

unseal Rat.add Rat.mul Rat.inv Rat.sub Rat.ofScientific in
/-- C2: a step can raise: from the freshly constructed two-agent simulation
driven by the bounded stream `gCrash`, the very first `step` raises a
`KeyError` (modelled as `none`) — both directional entries of the single
couple queue a breakup in the same sweep and `_break_relationship` deletes
the same keys twice. -/
theorem C2_step_raises_keyerror :
    (step (DatingSimulation.mkInit 2 gCrash)).isNone = true ∧
    StreamBounded gCrash :=
  ⟨by set_option maxRecDepth 10000 in decide, streamBounded_gCrash⟩

/-- C10: a newly constructed `DatingAgent` starts single with satisfaction
exactly 1.0, emotional state 0.5, every trait score in `[0, 1]`, and 2 to 5
distinct interests; consequently a newly constructed simulation satisfies
the status/mapping invariant and the `[0, 1]` bounds before any tick. -/
theorem C10_initial_state (i : Nat) (nm : String) (g : RNG)
    (hg : StreamBounded g) (n : ℤ) (g2 : RNG) (hg2 : StreamBounded g2) :
    ((DatingAgent.mkInit i nm g).1.relationship_status = "single" ∧
     (DatingAgent.mkInit i nm g).1.relationship_satisfaction = 1 ∧
     (DatingAgent.mkInit i nm g).1.emotional_state = 0.5 ∧
     (∀ t, 0 ≤ (DatingAgent.mkInit i nm g).1.personality t ∧
           (DatingAgent.mkInit i nm g).1.personality t ≤ 1) ∧
     2 ≤ (DatingAgent.mkInit i nm g).1.interests.length ∧
     (DatingAgent.mkInit i nm g).1.interests.length ≤ 5 ∧
     (DatingAgent.mkInit i nm g).1.interests.Nodup) ∧
    Inv (DatingSimulation.mkInit n g2) ∧
    Bounds (DatingSimulation.mkInit n g2) := by
  have hb := mkInit_agent_bounded hg i nm
  have hlen : (DatingAgent.mkInit i nm g).1.interests.length =
      ((g.random).2.random.2.random.2.randint 2 5).1 := by
    simp only [DatingAgent.mkInit]
    exact sampleAux_length _ _ _
      (le_trans (randint_2_5 _).2 (by norm_num [interestList]))
  refine ⟨⟨rfl, by norm_num [DatingAgent.mkInit], rfl,
      fun t => ⟨(hb.2.2 t).1, (hb.2.2 t).2⟩, ?_, ?_, ?_⟩,
    mkInit_sim_inv n g2, mkInit_sim_bounds hg2 n⟩
  · rw [hlen]; exact (randint_2_5 _).1
  · rw [hlen]; exact (randint_2_5 _).2
  · simp only [DatingAgent.mkInit]
    exact sampleAux_nodup _ _ _ (by decide)

/-- C3: at every tick boundary of a constructed simulation (after any
number of successful steps from any population size and seed), the
relationship mapping is symmetric with even cardinality, and an agent has
status "in_relationship" iff its id is a key of the mapping. -/
theorem C3_tick_invariants (n : ℤ) (g : RNG) (N : Nat)
    (s' : DatingSimulation)
    (h : run N (DatingSimulation.mkInit n g) = some s') :
    SymmRel s'.environment.relationships ∧
    Even s'.environment.relationships.length ∧
    StatusIff s' := by
  have hI := run_inv N (mkInit_sim_inv n g) h
  exact ⟨hI.2.1, hI.2.2.2.2, hI.2.2.2.1⟩

unseal Rat.add Rat.mul Rat.inv Rat.sub Rat.ofScientific in
theorem C3_tick_invariants_witness :
    (run 1 (DatingSimulation.mkInit 2 gForm)).isSome = true ∧
    (run 1 (DatingSimulation.mkInit 2 gForm)).elim True
      (fun s' => SymmRel s'.environment.relationships ∧
        Even s'.environment.relationships.length ∧ StatusIff s') := by
  refine ⟨by set_option maxRecDepth 10000 in decide, ?_⟩
  cases hr : run 1 (DatingSimulation.mkInit 2 gForm) with
  | none => exact trivial
  | some s' => exact C3_tick_invariants 2 gForm 1 s' hr

/-- C4: `update_satisfaction(partner)` stores and returns
`clamp(old + u + (compatibility(partner) - 0.5) * 0.1, 0, 1)` where `u` is
the `uniform(-0.1, 0.1)` draw (in `[-0.1, 0.1]` for any stream value in
`[0, 1)`); consequently satisfaction and every personality trait score of
every agent stay in `[0, 1]` after any number of ticks. -/
theorem C4_satisfaction_clamped :
    (∀ (a partner : DatingAgent) (g : RNG),
      (a.update_satisfaction partner g).1 =
        max 0 (min 1 (a.relationship_satisfaction +
          (g.uniform (-0.1) 0.1).1 +
          (a.calculate_compatibility partner - 0.5) * 0.1)) ∧
      (a.update_satisfaction partner g).2.1.relationship_satisfaction =
        (a.update_satisfaction partner g).1 ∧
      0 ≤ (a.update_satisfaction partner g).1 ∧
      (a.update_satisfaction partner g).1 ≤ 1 ∧
      (0 ≤ g.stream g.idx → g.stream g.idx < 1 →
        -(0.1 : ℚ) ≤ (g.uniform (-0.1) 0.1).1 ∧
          (g.uniform (-0.1) 0.1).1 ≤ 0.1)) ∧
    (∀ (n : ℤ) (g : RNG), StreamBounded g → ∀ (N : Nat)
      (s' : DatingSimulation),
      run N (DatingSimulation.mkInit n g) = some s' → Bounds s') := by
  constructor
  · intro a partner g
    refine ⟨?_, update_sat_value a partner g,
      (update_sat_bounds a partner g).1,
      (update_sat_bounds a partner g).2, ?_⟩
    · unfold DatingAgent.update_satisfaction
      norm_num
    · intro h0 h1
      unfold RNG.uniform RNG.random
      simp only []
      constructor <;> nlinarith
  · intro n g hg N s' hr
    exact run_bounds N (mkInit_sim_bounds hg n) hr

unseal Rat.add Rat.mul Rat.inv Rat.sub Rat.ofScientific in
theorem C4_satisfaction_clamped_witness :
    ((agentA.update_satisfaction agentB gHalf).1 =
      max 0 (min 1 (agentA.relationship_satisfaction +
        (gHalf.uniform (-0.1) 0.1).1 +
        (agentA.calculate_compatibility agentB - 0.5) * 0.1))) ∧
    (-(0.1 : ℚ) ≤ (gHalf.uniform (-0.1) 0.1).1 ∧
      (gHalf.uniform (-0.1) 0.1).1 ≤ 0.1) ∧
    (run 1 (DatingSimulation.mkInit 2 gForm)).isSome = true ∧
    (run 1 (DatingSimulation.mkInit 2 gForm)).elim True Bounds := by
  refine ⟨(C4_satisfaction_clamped.1 agentA agentB gHalf).1,
    (C4_satisfaction_clamped.1 agentA agentB gHalf).2.2.2.2
      (by norm_num [gHalf]) (by norm_num [gHalf]),
    by set_option maxRecDepth 10000 in decide, ?_⟩
  cases hr : run 1 (DatingSimulation.mkInit 2 gForm) with
  | none => exact trivial
  | some s' =>
    exact C4_satisfaction_clamped.2 2 gForm streamBounded_gForm 1 s' hr

/-- C5: the only single-to-in_relationship transition is a processed
REQUEST_DATE resolving to a single target with compatibility strictly above
0.7, which writes both directions of the mapping, flips both statuses and
increments relationships_formed by exactly 1; a processed EXPRESS_INTEREST
changes no agent and no mapping and can only increment messages_sent; the
breakup sweep and the action-collection phase never set a status to
"in_relationship". -/
theorem C5_relationship_transitions :
    (∀ (s : DatingSimulation) (p : Nat × Action),
      p.2.type = .EXPRESS_INTEREST →
      (processAction s p).agents = s.agents ∧
      (processAction s p).environment.relationships =
        s.environment.relationships ∧
      (processAction s p).stats.dates_arranged = s.stats.dates_arranged ∧
      (processAction s p).stats.relationships_formed =
        s.stats.relationships_formed ∧
      ((processAction s p).stats.messages_sent = s.stats.messages_sent ∨
       (processAction s p).stats.messages_sent =
         s.stats.messages_sent + 1)) ∧
    (∀ (s : DatingSimulation) (p : Nat × Action) (agent : DatingAgent),
      p.2.type = .REQUEST_DATE →
      findAgent s.agents p.1 = some agent →
      s.environment.is_valid_action agent p.2 = true →
      (single_targets s agent).isEmpty = false →
      agent.calculate_compatibility (chosenTarget s agent) > 0.7 →
      (processAction s p).environment.relationships =
        dictSet (dictSet s.environment.relationships agent.id
          (chosenTarget s agent).id) (chosenTarget s agent).id agent.id ∧
      (∀ b ∈ (processAction s p).agents,
        (b.id = agent.id ∨ b.id = (chosenTarget s agent).id) →
        b.relationship_status = "in_relationship") ∧
      (processAction s p).stats.relationships_formed =
        s.stats.relationships_formed + 1) ∧
    (∀ (s : DatingSimulation) (p : Nat × Action),
      ∀ b ∈ (processAction s p).agents,
      b.relationship_status = "in_relationship" →
      (∃ a ∈ s.agents, a.id = b.id ∧
        a.relationship_status = "in_relationship") ∨
      (p.2.type = .REQUEST_DATE ∧
       ∃ agent, findAgent s.agents p.1 = some agent ∧
         agent.calculate_compatibility (chosenTarget s agent) > 0.7 ∧
         (b.id = agent.id ∨ b.id = (chosenTarget s agent).id))) ∧
    (∀ (s s' : DatingSimulation),
      (s.agents.map (fun a => a.id)).Nodup →
      check_relationships s = some s' →
      ∀ x ∈ s'.agents, x.relationship_status = "in_relationship" →
        ∃ y ∈ s.agents, y.id = x.id ∧
          y.relationship_status = "in_relationship") ∧
    (∀ (agents : List DatingAgent) (env : DatingEnvironment) (g : RNG),
      ((collectActions agents env g).1).map statusProj =
        agents.map statusProj) := by
  refine ⟨fun s p hty => processAction_express s p hty, ?_,
    fun s p => processAction_status_source s p,
    fun s s' hids hc => check_relationships_status hids hc,
    fun agents env g => forall₂_proj (collectActions_sameCore agents env g)⟩
  intro s p agent hty hf hv hne hcompat
  have h := processAction_request_creates s p agent hty hf hv hne hcompat
  exact ⟨h.1, h.2.1, h.2.2.1⟩

unseal Rat.add Rat.mul Rat.inv Rat.sub Rat.ofScientific in
theorem C5_relationship_transitions_witness :
    (processAction cSingles pairRequest).environment.relationships =
      dictSet (dictSet cSingles.environment.relationships agentS0.id
        (chosenTarget cSingles agentS0).id)
        (chosenTarget cSingles agentS0).id agentS0.id ∧
    (∀ b ∈ (processAction cSingles pairRequest).agents,
      (b.id = agentS0.id ∨ b.id = (chosenTarget cSingles agentS0).id) →
      b.relationship_status = "in_relationship") ∧
    (processAction cSingles pairRequest).stats.relationships_formed =
      cSingles.stats.relationships_formed + 1 :=
  C5_relationship_transitions.2.1 cSingles pairRequest agentS0 rfl rfl
    (by decide) (by decide) (by decide)

unseal Rat.add Rat.mul Rat.inv Rat.sub Rat.ofScientific in
theorem C10_initial_state_witness :
    ((DatingAgent.mkInit 0 "A" gHalf).1.relationship_status = "single" ∧
     (DatingAgent.mkInit 0 "A" gHalf).1.relationship_satisfaction = 1 ∧
     (DatingAgent.mkInit 0 "A" gHalf).1.emotional_state = 0.5 ∧
     (∀ t, 0 ≤ (DatingAgent.mkInit 0 "A" gHalf).1.personality t ∧
           (DatingAgent.mkInit 0 "A" gHalf).1.personality t ≤ 1) ∧
     2 ≤ (DatingAgent.mkInit 0 "A" gHalf).1.interests.length ∧
     (DatingAgent.mkInit 0 "A" gHalf).1.interests.length ≤ 5 ∧
     (DatingAgent.mkInit 0 "A" gHalf).1.interests.Nodup) ∧
    Inv (DatingSimulation.mkInit 2 gHalf) ∧
    Bounds (DatingSimulation.mkInit 2 gHalf) :=
  C10_initial_state 0 "A" gHalf streamBounded_gHalf 2 gHalf streamBounded_gHalf

end Dating
